import Mathlib

/-!
Shallow embedding of the workflow execution engine of `src/test_ai/workflow/executor.py`
(the `WorkflowExecutor` class) together with the parts of the data model it consumes.

Modelling conventions:
* Python dicts become association lists `List (String × Value)` with Python's
  insert-or-overwrite update (`dictSet`) and membership/lookup (`dictGet`).
* Python exceptions become `Except String α`; an uncaught exception escaping a
  function is an `Except.error` result.
* The injected collaborators (step handlers, checkpoint manager, contract
  validator, budget manager) are opaque behaviour oracles: total functions
  returning `Except String _`, indexed by the call's arguments (and, for a
  handler, by the attempt number, so that a handler may fail on some
  invocations and succeed on others, as a real impure callable can).
* Wall-clock time (`duration_ms`, timestamps, the backoff sleep) is not
  modelled: no claim mentions it.
* Each run additionally produces a trace of observable calls (`Event`s):
  handler invocations and checkpoint-manager calls, in order.
-/

set_option autoImplicit false

namespace AIOrchestra

/-- A Python value stored in the execution context / step outputs.
`vNone` models Python's `None` (present in a dict but distinct from absence). -/
inductive Value where
  | vNone
  | vInt (n : Int)
  | vStr (s : String)
  | vBool (b : Bool)
deriving DecidableEq, Repr

/-- Execution context: a Python dict from names to values. -/
abbrev Ctx := List (String × Value)

/-- A handler output mapping (a Python dict). -/
abbrev OutputMap := List (String × Value)

/-- Python dict lookup: first binding for the key (bindings are kept unique
by `dictSet`, mirroring dict semantics). -/
def dictGet {α : Type} : List (String × α) → String → Option α
  | [], _ => none
  | (k, v) :: rest, key => if k = key then some v else dictGet rest key

/-- Python dict update `d[key] = v`: overwrite in place if present, else append
(insertion order preserved, as in Python dicts). -/
def dictSet {α : Type} : List (String × α) → String → α → List (String × α)
  | [], key, v => [(key, v)]
  | (k, w) :: rest, key, v =>
    if k = key then (key, v) :: rest else (k, w) :: dictSet rest key v

/-- Modelled from the spec: `StepConfig` (from the missing `workflow/loader.py`;
spec §3 "StepDefinition": id, type, params, max_retries, on_failure ∈
\x7babort, skip\x7d, declared output keys, optional condition expression).
The `params` dict is flattened to the fields the executor reads:
`params.get("role")` (kept only when truthy), `params.get("input", \x7b\x7d)`,
`params.get("estimated_tokens")`.  The condition is an opaque predicate on the
context, standing for `ConditionConfig.evaluate`. -/
structure StepConfig where
  id : String
  type : String
  role : Option String
  input : OutputMap
  estimated_tokens : Option Int
  max_retries : Nat
  on_failure : String
  outputs : List String
  condition : Option (Ctx → Bool)

/-- Modelled from the spec: per-input declaration of `WorkflowConfig.inputs`
(spec §3: declared inputs, name → required/default).  `default = some v`
models the key "default" being present in the spec dict (possibly with value
`None`, i.e. `some Value.vNone`). -/
structure InputSpec where
  required : Bool
  default : Option Value

/-- Modelled from the spec: `WorkflowConfig` (from the missing
`workflow/loader.py`; spec §3 "WorkflowDefinition": id/name, ordered steps,
declared inputs, declared outputs). -/
structure WorkflowConfig where
  name : String
  inputs : List (String × InputSpec)
  steps : List StepConfig
  outputs : List String

/-- Status of a workflow step (`StepStatus` in executor.py). -/
inductive StepStatus where
  | pending
  | running
  | success
  | failed
  | skipped
deriving DecidableEq, Repr

/-- Result of executing a single step (`StepResult` in executor.py;
`duration_ms` is wall-clock time and is not modelled).  `tokens_used` holds
the raw value of `output.get("tokens_used", 0)` — Python does not check its
type here, so a handler may store a non-integer; the executor's
`total_tokens += tokens_used` is where a non-addable value raises. -/
structure StepResult where
  step_id : String
  status : StepStatus
  output : OutputMap
  error : Option String
  tokens_used : Value
  retries : Nat
deriving DecidableEq, Repr

/-- Result of executing a complete workflow (`ExecutionResult` in executor.py;
timestamps and `total_duration_ms` are wall-clock and not modelled). -/
structure ExecutionResult where
  workflow_name : String
  status : String
  steps : List StepResult
  outputs : List (String × Value)
  total_tokens : Int
  error : Option String
deriving DecidableEq, Repr

/-- Behaviour oracle for a step handler: given the step, the context and the
attempt index of this invocation, either raise (`error`) or return an output
dict.  The attempt index makes non-deterministic real-world handlers (fail
then succeed) expressible. -/
abbrev HandlerBehavior := StepConfig → Ctx → Nat → Except String OutputMap

/-- Behaviour oracle for the checkpoint manager collaborator.  `stage_enter`
models the `stage(...)` call and `__enter__`; `stage_exit` models `__exit__`
(both indexed by step id and attempt).  `start_workflow` may return a falsy
workflow id, modelled as `Except.ok none`. -/
structure CheckpointBehavior where
  start_workflow : String → Ctx → Except String (Option String)
  stage_enter : String → Nat → Except String Unit
  stage_exit : String → Nat → Except String Unit
  complete_workflow : Except String Unit
  fail_workflow : String → Except String Unit

/-- Behaviour oracle for the contract validator collaborator. -/
structure ValidatorBehavior where
  validate_input : String → OutputMap → Ctx → Except String Unit
  validate_output : String → OutputMap → Except String Unit

/-- Behaviour oracle for the budget manager collaborator. -/
structure BudgetBehavior where
  can_allocate : String → Int → Except String Bool
  record_usage : String → Value → Except String Unit

/-- The executor with its injected collaborators (`WorkflowExecutor.__init__`):
optional checkpoint manager, contract validator, budget manager, and the
handler dispatch table (`self._handlers`, including any registered handlers). -/
structure Executor where
  checkpoint_manager : Option CheckpointBehavior
  contract_validator : Option ValidatorBehavior
  budget_manager : Option BudgetBehavior
  handlers : String → Option HandlerBehavior

/-- Observable calls made during a run, in order. -/
inductive Event where
  | handlerCall (step_id : String) (attempt : Nat)
  | ckStartWorkflow (name : String)
  | ckStageEnter (step_id : String) (attempt : Nat)
  | ckStageExit (step_id : String) (attempt : Nat)
  | ckCompleteWorkflow
  | ckFailWorkflow (error : String)
deriving DecidableEq, Repr

/-- Whether an event is a call on the checkpoint manager. -/
def Event.isCheckpointCall : Event → Bool
  | .ckStartWorkflow _ => true
  | .ckStageEnter _ _ => true
  | .ckStageExit _ _ => true
  | .ckCompleteWorkflow => true
  | .ckFailWorkflow _ => true
  | .handlerCall _ _ => false

/-- The step a per-step event belongs to (`none` for workflow-level
checkpoint calls). -/
def Event.stepIdOf : Event → Option String
  | .handlerCall sid _ => some sid
  | .ckStageEnter sid _ => some sid
  | .ckStageExit sid _ => some sid
  | .ckStartWorkflow _ => none
  | .ckCompleteWorkflow => none
  | .ckFailWorkflow _ => none

/-- `output.get("tokens_used", 0)`: the raw value stored on the StepResult
(line 283), whatever its type. -/
def rawTokens (out : OutputMap) : Value :=
  (dictGet out "tokens_used").getD (Value.vInt 0)

/-- Python `int + value`, as in `result.total_tokens += step_result.tokens_used`
(line 181): ints add, bools count as 0/1, while a string or `None` raises
`TypeError` — inside the `try`, so it is caught at line 206 and fails the
workflow. -/
def pyTokensInt : Value → Except String Int
  | Value.vInt n => Except.ok n
  | Value.vBool b => Except.ok (if b then 1 else 0)
  | Value.vStr _ =>
    Except.error "unsupported operand type(s) for +=: 'int' and 'str'"
  | Value.vNone =>
    Except.error "unsupported operand type(s) for +=: 'int' and 'NoneType'"

/-- Python `value > 0`, as in the budget guard `step_result.tokens_used > 0`
(line 185): defined on ints and bools, raising `TypeError` on a string or
`None` (unreachable in the loop, which raised earlier at the `+=`). -/
def pyGtZero : Value → Except String Bool
  | Value.vInt n => Except.ok (decide (0 < n))
  | Value.vBool b => Except.ok b
  | Value.vStr _ =>
    Except.error "'>' not supported between instances of 'str' and 'int'"
  | Value.vNone =>
    Except.error "'>' not supported between instances of 'NoneType' and 'int'"

/-- The condition gate of `_execute_step` (line 236): true when no condition is
declared or the declared condition evaluates to true on the context. -/
def condPasses (step : StepConfig) (ctx : Ctx) : Bool :=
  match step.condition with
  | some c => c ctx
  | none => true

/-- The input-contract validation of `_execute_step` (lines 241-249): performed
only when a contract validator is configured and the step declares a truthy
role; otherwise trivially passes. -/
def inputValidation (ex : Executor) (step : StepConfig) (ctx : Ctx) : Except String Unit :=
  match ex.contract_validator, step.role with
  | some v, some role => v.validate_input role step.input ctx
  | _, _ => Except.ok ()

/-- The output-contract validation of `_execute_step` (lines 277-279). -/
def outputValidation (ex : Executor) (step : StepConfig) (out : OutputMap) : Except String Unit :=
  match ex.contract_validator, step.role with
  | some v, some role => v.validate_output role out
  | _, _ => Except.ok ()

/-- Result of the checkpoint `stage(...)` acquisition for one attempt: a call
is made only when both a checkpoint manager and a truthy workflow id are
present (line 265). -/
def stageEnterRes (ex : Executor) (wfId : Option String) (sid : String) (attempt : Nat) :
    Except String Unit :=
  match ex.checkpoint_manager, wfId with
  | some cb, some _ => cb.stage_enter sid attempt
  | _, _ => Except.ok ()

/-- Result of the checkpoint stage finalization (`__exit__`) for one attempt. -/
def stageExitRes (ex : Executor) (wfId : Option String) (sid : String) (attempt : Nat) :
    Except String Unit :=
  match ex.checkpoint_manager, wfId with
  | some cb, some _ => cb.stage_exit sid attempt
  | _, _ => Except.ok ()

/-- Whether this attempt runs inside a checkpoint stage (emitting stage
events), i.e. a checkpoint manager is configured and the workflow id is
truthy. -/
def staged (ex : Executor) (wfId : Option String) : Bool :=
  match ex.checkpoint_manager, wfId with
  | some _, some _ => true
  | _, _ => false

/-- One attempt of the retry loop body up to and including the `with`
block (lines 263-275): stage acquisition, handler invocation, stage
finalization.  Python `with` semantics: if `__enter__` raises the body never
runs; if the body raises, `__exit__` still runs and its own exception (if any)
replaces the body's. -/
def runAttempt (ex : Executor) (step : StepConfig) (wfId : Option String) (ctx : Ctx)
    (handler : HandlerBehavior) (attempt : Nat) : Except String OutputMap × List Event :=
  if staged ex wfId then
    match stageEnterRes ex wfId step.id attempt with
    | Except.error e => (Except.error e, [Event.ckStageEnter step.id attempt])
    | Except.ok _ =>
      match handler step ctx attempt with
      | Except.error e =>
        match stageExitRes ex wfId step.id attempt with
        | Except.error e2 =>
          (Except.error e2,
            [Event.ckStageEnter step.id attempt, Event.handlerCall step.id attempt,
             Event.ckStageExit step.id attempt])
        | Except.ok _ =>
          (Except.error e,
            [Event.ckStageEnter step.id attempt, Event.handlerCall step.id attempt,
             Event.ckStageExit step.id attempt])
      | Except.ok out =>
        match stageExitRes ex wfId step.id attempt with
        | Except.error e2 =>
          (Except.error e2,
            [Event.ckStageEnter step.id attempt, Event.handlerCall step.id attempt,
             Event.ckStageExit step.id attempt])
        | Except.ok _ =>
          (Except.ok out,
            [Event.ckStageEnter step.id attempt, Event.handlerCall step.id attempt,
             Event.ckStageExit step.id attempt])
  else
    (handler step ctx attempt, [Event.handlerCall step.id attempt])

/-- One whole attempt of the retry loop `try` body (lines 263-284): the staged
handler run followed by output-contract validation; any raise is the
attempt's failure. -/
def runAttemptValidated (ex : Executor) (step : StepConfig) (wfId : Option String) (ctx : Ctx)
    (handler : HandlerBehavior) (attempt : Nat) : Except String OutputMap × List Event :=
  match runAttempt ex step wfId ctx handler attempt with
  | (Except.error e, ev) => (Except.error e, ev)
  | (Except.ok out, ev) =>
    match outputValidation ex step out with
    | Except.error e => (Except.error e, ev)
    | Except.ok _ => (Except.ok out, ev)

/-- The retry loop of `_execute_step` (lines 258-292), with `fuel` the number
of retries still allowed after the current `attempt` (initially
`max_retries`, so `attempt` ranges over `0..max_retries` as in
`range(step.max_retries + 1)`).  Returns the final attempt outcome together
with the attempt index at which the loop stopped (= `result.retries`). -/
def retryLoop (ex : Executor) (step : StepConfig) (wfId : Option String) (ctx : Ctx)
    (handler : HandlerBehavior) : Nat → Nat → (Except String OutputMap × Nat) × List Event
  | fuel, attempt =>
    match runAttemptValidated ex step wfId ctx handler attempt with
    | (Except.ok out, ev) => ((Except.ok out, attempt), ev)
    | (Except.error e, ev) =>
      match fuel with
      | 0 => ((Except.error e, attempt), ev)
      | fuel' + 1 =>
        let rest := retryLoop ex step wfId ctx handler fuel' (attempt + 1)
        (rest.1, ev ++ rest.2)

/-- `WorkflowExecutor._execute_step` (lines 230-295): condition gate, input
contract validation, handler lookup, retry loop, result assembly.  The
returned events are the observable calls the step made. -/
def execStep (ex : Executor) (step : StepConfig) (wfId : Option String) (ctx : Ctx) :
    StepResult × List Event :=
  if ¬ condPasses step ctx then
    ({ step_id := step.id, status := StepStatus.skipped, output := [], error := none,
       tokens_used := Value.vInt 0, retries := 0 }, [])
  else
    match inputValidation ex step ctx with
    | Except.error e =>
      ({ step_id := step.id, status := StepStatus.failed, output := [],
         error := some ("Input validation failed: " ++ e), tokens_used := Value.vInt 0,
         retries := 0 }, [])
    | Except.ok _ =>
      match ex.handlers step.type with
      | none =>
        ({ step_id := step.id, status := StepStatus.failed, output := [],
           error := some ("Unknown step type: " ++ step.type), tokens_used := Value.vInt 0,
           retries := 0 }, [])
      | some handler =>
        let r := retryLoop ex step wfId ctx handler step.max_retries 0
        match r.1 with
        | (Except.ok out, attempt) =>
          ({ step_id := step.id, status := StepStatus.success, output := out, error := none,
             tokens_used := rawTokens out, retries := attempt }, r.2)
        | (Except.error e, attempt) =>
          ({ step_id := step.id, status := StepStatus.failed, output := [], error := some e,
             tokens_used := Value.vInt 0, retries := attempt }, r.2)

/-- The context merge after a step (lines 197-200): for each declared output
key, copy it from the step's output into the context when the handler
produced it. -/
def mergeOutputs (ctx : Ctx) (declared : List String) (out : OutputMap) : Ctx :=
  declared.foldl
    (fun c k =>
      match dictGet out k with
      | some v => dictSet c k v
      | none => c)
    ctx

/-- The budget gate before a step (lines 173-177):
`can_allocate(step.params.get("estimated_tokens", 1000))`. -/
def budgetGate (ex : Executor) (step : StepConfig) : Except String Bool :=
  match ex.budget_manager with
  | some b => b.can_allocate step.id (step.estimated_tokens.getD 1000)
  | none => Except.ok true

/-- The token recording after a step (lines 185-186): `record_usage` is called
only when a budget manager is configured and `tokens_used > 0` (a comparison
that itself can raise on a non-numeric value). -/
def recordGate (ex : Executor) (step : StepConfig) (r : StepResult) : Except String Unit :=
  match ex.budget_manager with
  | some b =>
    match pyGtZero r.tokens_used with
    | Except.error e => Except.error e
    | Except.ok true => b.record_usage step.id r.tokens_used
    | Except.ok false => Except.ok ()
  | none => Except.ok ()

/-- Python `str(x)` for an optional error string (`f"... \x7bstep_result.error\x7d"`
renders `None` when absent). -/
def pyStrOpt : Option String → String
  | some s => s
  | none => "None"

/-- The abort error message of line 192. -/
def abortMsg (step : StepConfig) (r : StepResult) : String :=
  "Step " ++ "'" ++ step.id ++ "'" ++ " failed: " ++ pyStrOpt r.error

/-- How the step loop of `execute` (lines 170-204) terminated. -/
inductive LoopExit where
  | completed
  | budget_denied
  | aborted (msg : String)
  | raised (e : String)
deriving DecidableEq, Repr

/-- The step loop of `execute` (lines 170-204), threading the execution
context.  Returns the loop exit, the final context, the accumulated step
results, the accumulated token total, and the events emitted.  An exception
raised by a collaborator inside the loop surfaces as `LoopExit.raised` (to be
caught by the handler at line 206). -/
def runSteps (ex : Executor) (wfId : Option String) :
    List StepConfig → Ctx → (LoopExit × Ctx × List StepResult × Int) × List Event
  | [], ctx => ((LoopExit.completed, ctx, [], 0), [])
  | s :: rest, ctx =>
    match budgetGate ex s with
    | Except.error e => ((LoopExit.raised e, ctx, [], 0), [])
    | Except.ok false => ((LoopExit.budget_denied, ctx, [], 0), [])
    | Except.ok true =>
      let sr := execStep ex s wfId ctx
      let r := sr.1
      match pyTokensInt r.tokens_used with
      | Except.error e => ((LoopExit.raised e, ctx, [r], 0), sr.2)
      | Except.ok tok =>
        match recordGate ex s r with
        | Except.error e => ((LoopExit.raised e, ctx, [r], tok), sr.2)
        | Except.ok _ =>
          if r.status = StepStatus.failed ∧ s.on_failure = "abort" then
            ((LoopExit.aborted (abortMsg s r), ctx, [r], tok), sr.2)
          else if r.status = StepStatus.failed ∧ s.on_failure = "skip" then
            let rec' := runSteps ex wfId rest ctx
            ((rec'.1.1, rec'.1.2.1, r :: rec'.1.2.2.1, tok + rec'.1.2.2.2),
              sr.2 ++ rec'.2)
          else
            let ctx2 := mergeOutputs ctx s.outputs r.output
            let rec' := runSteps ex wfId rest ctx2
            ((rec'.1.1, rec'.1.2.1, r :: rec'.1.2.2.1, tok + rec'.1.2.2.2),
              sr.2 ++ rec'.2)

/-- The required-input pass of `execute` (lines 144-151): walk the declared
inputs in order; a required input missing from the context takes its declared
default when present, else the whole run fails with a workflow-level error. -/
def applyRequiredInputs : List (String × InputSpec) → Ctx → Except String Ctx
  | [], ctx => Except.ok ctx
  | (name, spec) :: rest, ctx =>
    if spec.required ∧ dictGet ctx name = none then
      match spec.default with
      | some d => applyRequiredInputs rest (dictSet ctx name d)
      | none => Except.error ("Missing required input: " ++ name)
    else applyRequiredInputs rest ctx

/-- The resume-point search of `execute` (lines 161-167): the index of the
first step whose id matches, else 0 (`i` is the running index). -/
def findIndexFrom : List StepConfig → String → Nat → Nat
  | [], _, _ => 0
  | st :: rest, s, i => if st.id = s then i else findIndexFrom rest s (i + 1)

/-- `start_index` as computed by `execute`: 0 when no `resume_from` is given
or when no step id matches. -/
def resumeIndex (steps : List StepConfig) : Option String → Nat
  | none => 0
  | some s => findIndexFrom steps s 0

/-- The workflow-output collection of `execute` (lines 219-221). -/
def collectOutputs (declared : List String) (ctx : Ctx) : List (String × Value) :=
  declared.foldl
    (fun acc name =>
      match dictGet ctx name with
      | some v => dictSet acc name v
      | none => acc)
    []

/-- The status string and top-level error `execute` assigns for a given loop
exit (lines 175-176, 190-192, 202-208). -/
def exitStatusError : LoopExit → String × Option String
  | LoopExit.completed => ("success", none)
  | LoopExit.budget_denied => ("failed", some "Token budget exceeded")
  | LoopExit.aborted msg => ("failed", some msg)
  | LoopExit.raised e => ("failed", some e)

/-- The checkpoint finalization of `execute` (lines 209-216): on an exception
caught from the loop, `fail_workflow(str(e))`; otherwise `complete_workflow`
on success and `fail_workflow(result.error)` on failure — all made only when a
checkpoint manager and a truthy workflow id are present, and all outside any
`try`, so a raise here propagates. -/
def finalizeCheckpoint (ex : Executor) (wfId : Option String) :
    LoopExit → Except String Unit × List Event
  | exit =>
    match ex.checkpoint_manager, wfId with
    | some cb, some _ =>
      match exit with
      | LoopExit.completed => (cb.complete_workflow, [Event.ckCompleteWorkflow])
      | LoopExit.budget_denied =>
        (cb.fail_workflow "Token budget exceeded",
          [Event.ckFailWorkflow "Token budget exceeded"])
      | LoopExit.aborted msg => (cb.fail_workflow msg, [Event.ckFailWorkflow msg])
      | LoopExit.raised e => (cb.fail_workflow e, [Event.ckFailWorkflow e])
    | _, _ => (Except.ok (), [])

/-- The part of `execute` after the checkpoint-manager start call (lines
161-228): the step loop from the resume index, status/error assembly,
checkpoint finalization, workflow-output collection.  `ev0` carries the
events already emitted. -/
def executeFrom (ex : Executor) (workflow : WorkflowConfig) (ctx0 : Ctx) (wfId : Option String)
    (resume_from : Option String) (ev0 : List Event) :
    Except String ExecutionResult × List Event :=
  let startIdx := resumeIndex workflow.steps resume_from
  let run := runSteps ex wfId (workflow.steps.drop startIdx) ctx0
  let finalize := finalizeCheckpoint ex wfId run.1.1
  match finalize.1 with
  | Except.error e => (Except.error e, ev0 ++ run.2 ++ finalize.2)
  | Except.ok _ =>
    (Except.ok { workflow_name := workflow.name, status := (exitStatusError run.1.1).1,
                 steps := run.1.2.2.1,
                 outputs := collectOutputs workflow.outputs run.1.2.1,
                 total_tokens := run.1.2.2.2, error := (exitStatusError run.1.1).2 },
      ev0 ++ run.2 ++ finalize.2)

/-- `WorkflowExecutor.execute` (lines 124-228).  `Except.error` models an
exception propagating uncaught to the caller (possible only from the
checkpoint manager's `start_workflow`, `complete_workflow` and
`fail_workflow`, which sit outside the `try`). -/
def execute (ex : Executor) (workflow : WorkflowConfig) (inputs : Ctx)
    (resume_from : Option String) : Except String ExecutionResult × List Event :=
  match applyRequiredInputs workflow.inputs inputs with
  | Except.error msg =>
    (Except.ok { workflow_name := workflow.name, status := "failed", steps := [],
                 outputs := [], total_tokens := 0, error := some msg }, [])
  | Except.ok ctx0 =>
    match ex.checkpoint_manager with
    | some cb =>
      match cb.start_workflow workflow.name ctx0 with
      | Except.error e => (Except.error e, [Event.ckStartWorkflow workflow.name])
      | Except.ok wfId =>
        executeFrom ex workflow ctx0 wfId resume_from [Event.ckStartWorkflow workflow.name]
    | none => executeFrom ex workflow ctx0 none resume_from []

/-- `WorkflowExecutor._execute_parallel` (lines 328-347), on sub-steps already
parsed to `StepConfig` (the source parses each dict with the missing loader's
`StepConfig.from_dict` first).  Returns the `results` mapping that the source
wraps as `\x7b"parallel_results": results\x7d`, plus the ordered list of
sub-step ids whose handler was invoked.  A sub-step whose type has no handler
is silently skipped; a handler exception is caught and recorded as
`\x7b"error": str(e)\x7d` under the sub-step's id.  Each handler is called once
(modelled as attempt index 0). -/
def executeParallelAux (handlers : String → Option HandlerBehavior) (ctx : Ctx) :
    List StepConfig → List (String × OutputMap) → List (String × OutputMap) × List String
  | [], acc => (acc, [])
  | s :: rest, acc =>
    match handlers s.type with
    | none => executeParallelAux handlers ctx rest acc
    | some h =>
      let entry : OutputMap :=
        match h s ctx 0 with
        | Except.ok out => out
        | Except.error e => [("error", Value.vStr e)]
      let r := executeParallelAux handlers ctx rest (dictSet acc s.id entry)
      (r.1, s.id :: r.2)

/-- The `results` dict and invocation order of `_execute_parallel`. -/
def execute_parallel (handlers : String → Option HandlerBehavior) (sub_steps : List StepConfig)
    (ctx : Ctx) : List (String × OutputMap) × List String :=
  executeParallelAux handlers ctx sub_steps []

/-- Checkpoint-manager behaviours that never raise (the only collaborator
whose exceptions can escape `execute`). -/
def ckSafe (ex : Executor) : Prop :=
  match ex.checkpoint_manager with
  | none => True
  | some cb =>
    (∀ n c, ∃ id, cb.start_workflow n c = Except.ok id)
      ∧ cb.complete_workflow = Except.ok ()
      ∧ (∀ e, cb.fail_workflow e = Except.ok ())

/-! ### Concrete instances used in counterexamples and witnesses -/

/-- A handler that always succeeds with an empty output. -/
def okHandler : HandlerBehavior := fun _ _ _ => Except.ok []

/-- A handler that always raises. -/
def boomHandler : HandlerBehavior := fun _ _ _ => Except.error "boom"

/-- A handler that succeeds with output `\x7b"y": 1\x7d`. -/
def okYHandler : HandlerBehavior := fun _ _ _ => Except.ok [("y", Value.vInt 1)]

/-- A handler that raises on its first invocation and succeeds afterwards. -/
def flakyHandler : HandlerBehavior := fun _ _ a =>
  if a = 0 then Except.error "flaky" else Except.ok [("y", Value.vInt 7)]

/-- A dispatch table with a single handler registered for step type "task". -/
def taskHandlers (h : HandlerBehavior) : String → Option HandlerBehavior := fun t =>
  if t = "task" then some h else none

/-- A minimal step of type "task": no role, no condition, no retries,
`on_failure = abort`, no declared outputs. -/
def baseStep : StepConfig :=
  { id := "s1", type := "task", role := none, input := [], estimated_tokens := none,
    max_retries := 0, on_failure := "abort", outputs := [], condition := none }

/-- An executor with no collaborators and only a "task" handler. -/
def bareEx (h : HandlerBehavior) : Executor :=
  { checkpoint_manager := none, contract_validator := none, budget_manager := none,
    handlers := taskHandlers h }

/-- A workflow with no inputs and no steps. -/
def emptyWf : WorkflowConfig := { name := "w0", inputs := [], steps := [], outputs := [] }

/-- One-step workflow whose step fails and is skipped (`on_failure = skip`). -/
def skipStep : StepConfig := { baseStep with on_failure := "skip", outputs := ["x"] }

/-- The workflow of the C1 counterexample. -/
def skipWf : WorkflowConfig := { name := "w", inputs := [], steps := [skipStep], outputs := [] }

/-- A contract validator that accepts every input and rejects every output. -/
def outFailValidator : ValidatorBehavior :=
  { validate_input := fun _ _ _ => Except.ok (),
    validate_output := fun _ _ => Except.error "schema violation" }

/-- A contract validator that rejects every input. -/
def inFailValidator : ValidatorBehavior :=
  { validate_input := fun _ _ _ => Except.error "bad",
    validate_output := fun _ _ => Except.ok () }

/-- Executor with the output-rejecting validator and a succeeding handler. -/
def exOutFail : Executor :=
  { checkpoint_manager := none, contract_validator := some outFailValidator,
    budget_manager := none, handlers := taskHandlers okHandler }

/-- Executor with the input-rejecting validator and a succeeding handler. -/
def exInFail : Executor :=
  { checkpoint_manager := none, contract_validator := some inFailValidator,
    budget_manager := none, handlers := taskHandlers okHandler }

/-- A step declaring a role, with one retry allowed. -/
def roleStep : StepConfig := { baseStep with role := some "builder", max_retries := 1 }

/-- A checkpoint store whose stage finalization always raises. -/
def flakyStore : CheckpointBehavior :=
  { start_workflow := fun _ _ => Except.ok (some "wf1"),
    stage_enter := fun _ _ => Except.ok (),
    stage_exit := fun _ _ => Except.error "disk full",
    complete_workflow := Except.ok (),
    fail_workflow := fun _ => Except.ok () }

/-- Executor with the flaky checkpoint store and a succeeding handler. -/
def exFlakyStore : Executor :=
  { checkpoint_manager := some flakyStore, contract_validator := none,
    budget_manager := none, handlers := taskHandlers okYHandler }

/-- A checkpoint store whose `start_workflow` raises. -/
def badStartStore : CheckpointBehavior :=
  { start_workflow := fun _ _ => Except.error "db down",
    stage_enter := fun _ _ => Except.ok (),
    stage_exit := fun _ _ => Except.ok (),
    complete_workflow := Except.ok (),
    fail_workflow := fun _ => Except.ok () }

/-- Executor whose checkpoint manager raises on `start_workflow`. -/
def exBadStart : Executor :=
  { checkpoint_manager := some badStartStore, contract_validator := none,
    budget_manager := none, handlers := fun _ => none }

/-- A second step (distinct id) for multi-step workflows. -/
def secondStep : StepConfig := { baseStep with id := "s2" }

/-- Two-step workflow with distinct step ids "s1", "s2". -/
def twoStepWf : WorkflowConfig :=
  { name := "w2", inputs := [], steps := [baseStep, secondStep], outputs := [] }

/-- The step of the retry witness: two retries allowed. -/
def retryStep : StepConfig := { baseStep with max_retries := 2 }

/-- Sub-steps for the parallel witness: "a" of a raising type, "b" and "c" of
a succeeding type, "d" of an unregistered type. -/
def subA : StepConfig := { baseStep with id := "a", type := "boomtask" }

/-- Succeeding sibling sub-step "b". -/
def subB : StepConfig := { baseStep with id := "b" }

/-- Succeeding sibling sub-step "c". -/
def subC : StepConfig := { baseStep with id := "c" }

/-- Dispatch table for the parallel witness: "boomtask" raises, "task"
succeeds. -/
def parHandlers : String → Option HandlerBehavior := fun t =>
  if t = "boomtask" then some boomHandler
  else if t = "task" then some okHandler
  else none

/-- A handler producing a declared key and a *string* `tokens_used`, the
type-error path of the token accumulation. -/
def strTokensHandler : HandlerBehavior := fun _ _ _ =>
  Except.ok [("x", Value.vInt 5), ("tokens_used", Value.vStr "abc")]

/-- A step declaring the output key "x". -/
def tokStep : StepConfig := { baseStep with outputs := ["x"] }

/-- One-step workflow declaring "x" as a workflow output. -/
def tokWf : WorkflowConfig :=
  { name := "wt", inputs := [], steps := [tokStep], outputs := ["x"] }

/-- A workflow declaring a required input with no default. -/
def reqWf : WorkflowConfig :=
  { name := "wr", inputs := [("x", { required := true, default := none })], steps := [],
    outputs := [] }

/-- The `ExecutionResult` of running the empty workflow with no
collaborators. -/
def emptyRunResult : ExecutionResult :=
  { workflow_name := "w0", status := "success", steps := [], outputs := [],
    total_tokens := 0, error := none }

/-! ### Dictionary and merge lemmas -/

theorem dictGet_dictSet {α : Type} (d : List (String × α)) (k k' : String) (v : α) :
    dictGet (dictSet d k v) k' = if k = k' then some v else dictGet d k' := by
  induction d with
  | nil =>
    by_cases h : k = k' <;> simp [dictSet, dictGet, h]
  | cons p rest ih =>
    obtain ⟨a, b⟩ := p
    by_cases hak : a = k
    · subst hak
      by_cases h : a = k' <;> simp [dictSet, dictGet, h]
    · by_cases h : a = k'
      · subst h
        have hk : ¬ k = a := fun hh => hak hh.symm
        simp [dictSet, dictGet, hak, hk]
      · simp [dictSet, dictGet, hak, h, ih]

theorem mergeOutputs_nil (ctx : Ctx) (out : OutputMap) : mergeOutputs ctx [] out = ctx := rfl

theorem mergeOutputs_cons (ctx : Ctx) (d : String) (rest : List String) (out : OutputMap) :
    mergeOutputs ctx (d :: rest) out =
      mergeOutputs
        (match dictGet out d with
         | some v => dictSet ctx d v
         | none => ctx) rest out := rfl

theorem mergeOutputs_get_notProduced (declared : List String) (ctx : Ctx) (out : OutputMap)
    (k : String) (h : dictGet out k = none) :
    dictGet (mergeOutputs ctx declared out) k = dictGet ctx k := by
  induction declared generalizing ctx with
  | nil => rw [mergeOutputs_nil]
  | cons d rest ih =>
    rw [mergeOutputs_cons]
    cases hd : dictGet out d with
    | none => exact ih ctx
    | some v =>
      have hne : d ≠ k := fun he => by rw [he, h] at hd; exact Option.noConfusion hd
      rw [ih (dictSet ctx d v), dictGet_dictSet, if_neg hne]

theorem mergeOutputs_get_notDeclared (declared : List String) (ctx : Ctx) (out : OutputMap)
    (k : String) (h : k ∉ declared) :
    dictGet (mergeOutputs ctx declared out) k = dictGet ctx k := by
  induction declared generalizing ctx with
  | nil => rw [mergeOutputs_nil]
  | cons d rest ih =>
    have hdk : d ≠ k := fun he => h (by rw [he]; exact List.mem_cons_self _ _)
    have hrest : k ∉ rest := fun hm => h (List.mem_cons_of_mem _ hm)
    rw [mergeOutputs_cons]
    cases hd : dictGet out d with
    | none => exact ih ctx hrest
    | some v => rw [ih (dictSet ctx d v) hrest, dictGet_dictSet, if_neg hdk]

theorem mergeOutputs_get_produced (declared : List String) (ctx : Ctx) (out : OutputMap)
    (k : String) (v : Value) (hk : k ∈ declared) (hv : dictGet out k = some v) :
    dictGet (mergeOutputs ctx declared out) k = some v := by
  induction declared generalizing ctx with
  | nil => exact absurd hk (List.not_mem_nil k)
  | cons d rest ih =>
    rw [mergeOutputs_cons]
    by_cases hkr : k ∈ rest
    · cases hd : dictGet out d with
      | none => exact ih ctx hkr
      | some w => exact ih (dictSet ctx d w) hkr
    · have hdk : d = k := by
        rcases List.mem_cons.mp hk with h | h
        · exact h.symm
        · exact absurd h hkr
      subst hdk
      rw [hv, mergeOutputs_get_notDeclared rest _ out d hkr, dictGet_dictSet, if_pos rfl]

/-! ### Attempt-level lemmas -/

theorem runAttempt_snd_not_staged (ex : Executor) (step : StepConfig) (wfId : Option String)
    (ctx : Ctx) (h : HandlerBehavior) (a : Nat) (hs : staged ex wfId = false) :
    (runAttempt ex step wfId ctx h a).2 = [Event.handlerCall step.id a] := by
  unfold runAttempt
  rw [hs]
  simp

theorem runAttempt_fst_not_staged (ex : Executor) (step : StepConfig) (wfId : Option String)
    (ctx : Ctx) (h : HandlerBehavior) (a : Nat) (hs : staged ex wfId = false) :
    (runAttempt ex step wfId ctx h a).1 = h step ctx a := by
  unfold runAttempt
  rw [hs]
  simp

theorem runAttempt_fst_of_stage_ok (ex : Executor) (step : StepConfig) (wfId : Option String)
    (ctx : Ctx) (h : HandlerBehavior) (a : Nat)
    (hen : stageEnterRes ex wfId step.id a = Except.ok ())
    (hex : stageExitRes ex wfId step.id a = Except.ok ()) :
    (runAttempt ex step wfId ctx h a).1 = h step ctx a := by
  unfold runAttempt
  cases hs : staged ex wfId with
  | false => simp
  | true =>
    simp only [if_pos rfl, hen]
    cases hh : h step ctx a <;> simp [hex]

theorem runAttempt_fst_of_stage_exit_error (ex : Executor) (step : StepConfig)
    (wfId : Option String) (ctx : Ctx) (h : HandlerBehavior) (a : Nat) (e2 : String)
    (hs : staged ex wfId = true)
    (hen : stageEnterRes ex wfId step.id a = Except.ok ())
    (hex : stageExitRes ex wfId step.id a = Except.error e2) :
    (runAttempt ex step wfId ctx h a).1 = Except.error e2 := by
  unfold runAttempt
  rw [hs]
  simp only [if_pos rfl, hen]
  cases hh : h step ctx a <;> simp [hex]

theorem runAttempt_handlerCall_mem (ex : Executor) (step : StepConfig) (wfId : Option String)
    (ctx : Ctx) (h : HandlerBehavior) (a : Nat)
    (hen : stageEnterRes ex wfId step.id a = Except.ok ()) :
    Event.handlerCall step.id a ∈ (runAttempt ex step wfId ctx h a).2 := by
  unfold runAttempt
  cases hs : staged ex wfId with
  | false => simp
  | true =>
    simp only [if_pos rfl, hen]
    cases hh : h step ctx a <;>
      cases hex : stageExitRes ex wfId step.id a <;> simp

theorem runAttempt_events_shape (ex : Executor) (step : StepConfig) (wfId : Option String)
    (ctx : Ctx) (h : HandlerBehavior) (a : Nat) :
    ∀ e ∈ (runAttempt ex step wfId ctx h a).2,
      e.stepIdOf = some step.id ∧ (staged ex wfId = false → e.isCheckpointCall = false) := by
  intro e he
  unfold runAttempt at he
  cases hs : staged ex wfId with
  | false =>
    rw [hs, if_neg (by simp)] at he
    rw [List.mem_singleton] at he
    subst he
    exact ⟨rfl, fun _ => rfl⟩
  | true =>
    rw [hs, if_pos rfl] at he
    rcases hen : stageEnterRes ex wfId step.id a with e1 | u <;> rw [hen] at he
    · rw [List.mem_singleton] at he
      subst he
      exact ⟨rfl, fun hc => absurd hc (by simp)⟩
    · have hmem : e = Event.ckStageEnter step.id a ∨ e = Event.handlerCall step.id a ∨
          e = Event.ckStageExit step.id a := by
        rcases hh : h step ctx a with e1 | out <;> rw [hh] at he <;>
          rcases hex : stageExitRes ex wfId step.id a with e2 | u2 <;> rw [hex] at he <;>
          simpa using he
      rcases hmem with rfl | rfl | rfl
      · exact ⟨rfl, fun hc => absurd hc (by simp)⟩
      · exact ⟨rfl, fun hc => absurd hc (by simp)⟩
      · exact ⟨rfl, fun hc => absurd hc (by simp)⟩

theorem runAttemptValidated_snd (ex : Executor) (step : StepConfig) (wfId : Option String)
    (ctx : Ctx) (h : HandlerBehavior) (a : Nat) :
    (runAttemptValidated ex step wfId ctx h a).2 = (runAttempt ex step wfId ctx h a).2 := by
  unfold runAttemptValidated
  rcases hra : runAttempt ex step wfId ctx h a with ⟨res, ev⟩
  cases res with
  | error e => rfl
  | ok out => cases hov : outputValidation ex step out <;> simp [hov]

theorem runAttemptValidated_fst (ex : Executor) (step : StepConfig) (wfId : Option String)
    (ctx : Ctx) (h : HandlerBehavior) (a : Nat) :
    (runAttemptValidated ex step wfId ctx h a).1 =
      match (runAttempt ex step wfId ctx h a).1 with
      | Except.error e => Except.error e
      | Except.ok out =>
        match outputValidation ex step out with
        | Except.error e => Except.error e
        | Except.ok _ => Except.ok out := by
  unfold runAttemptValidated
  rcases hra : runAttempt ex step wfId ctx h a with ⟨res, ev⟩
  cases res with
  | error e => rfl
  | ok out => cases hov : outputValidation ex step out <;> simp [hov]

/-! ### Retry-loop lemmas -/

theorem retryLoop_of_ok (ex : Executor) (step : StepConfig) (wfId : Option String) (ctx : Ctx)
    (h : HandlerBehavior) (fuel attempt : Nat) (out : OutputMap)
    (hok : (runAttemptValidated ex step wfId ctx h attempt).1 = Except.ok out) :
    retryLoop ex step wfId ctx h fuel attempt =
      ((Except.ok out, attempt), (runAttemptValidated ex step wfId ctx h attempt).2) := by
  unfold retryLoop
  rcases hra : runAttemptValidated ex step wfId ctx h attempt with ⟨res, ev⟩
  rw [hra] at hok
  simp only at hok
  subst hok
  rfl

theorem retryLoop_of_error_zero (ex : Executor) (step : StepConfig) (wfId : Option String)
    (ctx : Ctx) (h : HandlerBehavior) (attempt : Nat) (e : String)
    (herr : (runAttemptValidated ex step wfId ctx h attempt).1 = Except.error e) :
    retryLoop ex step wfId ctx h 0 attempt =
      ((Except.error e, attempt), (runAttemptValidated ex step wfId ctx h attempt).2) := by
  unfold retryLoop
  rcases hra : runAttemptValidated ex step wfId ctx h attempt with ⟨res, ev⟩
  rw [hra] at herr
  simp only at herr
  subst herr
  rfl

theorem retryLoop_of_error_succ (ex : Executor) (step : StepConfig) (wfId : Option String)
    (ctx : Ctx) (h : HandlerBehavior) (fuel attempt : Nat) (e : String)
    (herr : (runAttemptValidated ex step wfId ctx h attempt).1 = Except.error e) :
    retryLoop ex step wfId ctx h (fuel + 1) attempt =
      ((retryLoop ex step wfId ctx h fuel (attempt + 1)).1,
        (runAttemptValidated ex step wfId ctx h attempt).2 ++
          (retryLoop ex step wfId ctx h fuel (attempt + 1)).2) := by
  conv_lhs => unfold retryLoop
  rcases hra : runAttemptValidated ex step wfId ctx h attempt with ⟨res, ev⟩
  rw [hra] at herr
  simp only at herr
  subst herr
  rfl

theorem retryLoop_fst_of_ok (ex : Executor) (step : StepConfig) (wfId : Option String)
    (ctx : Ctx) (h : HandlerBehavior) (fuel attempt : Nat) (out : OutputMap)
    (hok : (runAttemptValidated ex step wfId ctx h attempt).1 = Except.ok out) :
    (retryLoop ex step wfId ctx h fuel attempt).1 = (Except.ok out, attempt) := by
  rw [retryLoop_of_ok ex step wfId ctx h fuel attempt out hok]

theorem retryLoop_snd_of_ok (ex : Executor) (step : StepConfig) (wfId : Option String)
    (ctx : Ctx) (h : HandlerBehavior) (fuel attempt : Nat) (out : OutputMap)
    (hok : (runAttemptValidated ex step wfId ctx h attempt).1 = Except.ok out) :
    (retryLoop ex step wfId ctx h fuel attempt).2 =
      (runAttemptValidated ex step wfId ctx h attempt).2 := by
  rw [retryLoop_of_ok ex step wfId ctx h fuel attempt out hok]

theorem retryLoop_fst_of_error_zero (ex : Executor) (step : StepConfig) (wfId : Option String)
    (ctx : Ctx) (h : HandlerBehavior) (attempt : Nat) (e : String)
    (herr : (runAttemptValidated ex step wfId ctx h attempt).1 = Except.error e) :
    (retryLoop ex step wfId ctx h 0 attempt).1 = (Except.error e, attempt) := by
  rw [retryLoop_of_error_zero ex step wfId ctx h attempt e herr]

theorem retryLoop_snd_of_error_zero (ex : Executor) (step : StepConfig) (wfId : Option String)
    (ctx : Ctx) (h : HandlerBehavior) (attempt : Nat) (e : String)
    (herr : (runAttemptValidated ex step wfId ctx h attempt).1 = Except.error e) :
    (retryLoop ex step wfId ctx h 0 attempt).2 =
      (runAttemptValidated ex step wfId ctx h attempt).2 := by
  rw [retryLoop_of_error_zero ex step wfId ctx h attempt e herr]

theorem retryLoop_fst_of_error_succ (ex : Executor) (step : StepConfig) (wfId : Option String)
    (ctx : Ctx) (h : HandlerBehavior) (fuel attempt : Nat) (e : String)
    (herr : (runAttemptValidated ex step wfId ctx h attempt).1 = Except.error e) :
    (retryLoop ex step wfId ctx h (fuel + 1) attempt).1 =
      (retryLoop ex step wfId ctx h fuel (attempt + 1)).1 := by
  rw [retryLoop_of_error_succ ex step wfId ctx h fuel attempt e herr]

theorem retryLoop_snd_of_error_succ (ex : Executor) (step : StepConfig) (wfId : Option String)
    (ctx : Ctx) (h : HandlerBehavior) (fuel attempt : Nat) (e : String)
    (herr : (runAttemptValidated ex step wfId ctx h attempt).1 = Except.error e) :
    (retryLoop ex step wfId ctx h (fuel + 1) attempt).2 =
      (runAttemptValidated ex step wfId ctx h attempt).2 ++
        (retryLoop ex step wfId ctx h fuel (attempt + 1)).2 := by
  rw [retryLoop_of_error_succ ex step wfId ctx h fuel attempt e herr]

theorem retryLoop_events_shape (ex : Executor) (step : StepConfig) (wfId : Option String)
    (ctx : Ctx) (h : HandlerBehavior) :
    ∀ fuel attempt, ∀ e ∈ (retryLoop ex step wfId ctx h fuel attempt).2,
      e.stepIdOf = some step.id ∧ (staged ex wfId = false → e.isCheckpointCall = false) := by
  intro fuel
  induction fuel with
  | zero =>
    intro attempt e he
    rcases hres : (runAttemptValidated ex step wfId ctx h attempt).1 with er | out
    · rw [retryLoop_snd_of_error_zero ex step wfId ctx h attempt er hres,
        runAttemptValidated_snd] at he
      exact runAttempt_events_shape ex step wfId ctx h attempt e he
    · rw [retryLoop_snd_of_ok ex step wfId ctx h 0 attempt out hres,
        runAttemptValidated_snd] at he
      exact runAttempt_events_shape ex step wfId ctx h attempt e he
  | succ fuel ih =>
    intro attempt e he
    rcases hres : (runAttemptValidated ex step wfId ctx h attempt).1 with er | out
    · rw [retryLoop_snd_of_error_succ ex step wfId ctx h fuel attempt er hres,
        List.mem_append] at he
      rcases he with he | he
      · rw [runAttemptValidated_snd] at he
        exact runAttempt_events_shape ex step wfId ctx h attempt e he
      · exact ih (attempt + 1) e he
    · rw [retryLoop_snd_of_ok ex step wfId ctx h (fuel + 1) attempt out hres,
        runAttemptValidated_snd] at he
      exact runAttempt_events_shape ex step wfId ctx h attempt e he

theorem retryLoop_ok_at (ex : Executor) (step : StepConfig) (wfId : Option String)
    (ctx : Ctx) (h : HandlerBehavior) :
    ∀ k fuel attempt out, k ≤ fuel →
      (∀ j, j < k → ∃ e, (runAttemptValidated ex step wfId ctx h (attempt + j)).1 =
        Except.error e) →
      (runAttemptValidated ex step wfId ctx h (attempt + k)).1 = Except.ok out →
      (retryLoop ex step wfId ctx h fuel attempt).1 = (Except.ok out, attempt + k) := by
  intro k
  induction k with
  | zero =>
    intro fuel attempt out _ _ hok
    rw [Nat.add_zero] at hok ⊢
    exact retryLoop_fst_of_ok ex step wfId ctx h fuel attempt out hok
  | succ k ih =>
    intro fuel attempt out hk herr hok
    obtain ⟨e0, he0⟩ := herr 0 (Nat.succ_pos k)
    rw [Nat.add_zero] at he0
    cases fuel with
    | zero => omega
    | succ fuel =>
      rw [retryLoop_fst_of_error_succ ex step wfId ctx h fuel attempt e0 he0]
      have harith : attempt + 1 + k = attempt + (k + 1) := by omega
      have hok' : (runAttemptValidated ex step wfId ctx h (attempt + 1 + k)).1 =
          Except.ok out := by rw [harith]; exact hok
      have herr' : ∀ j, j < k →
          ∃ e, (runAttemptValidated ex step wfId ctx h (attempt + 1 + j)).1 =
            Except.error e := by
        intro j hj
        obtain ⟨e, he⟩ := herr (j + 1) (Nat.succ_lt_succ hj)
        exact ⟨e, by rw [show attempt + 1 + j = attempt + (j + 1) from by omega]; exact he⟩
      have := ih fuel (attempt + 1) out (Nat.le_of_succ_le_succ hk) herr' hok'
      rw [this, harith]

theorem retryLoop_all_error (ex : Executor) (step : StepConfig) (wfId : Option String)
    (ctx : Ctx) (h : HandlerBehavior) :
    ∀ fuel attempt,
      (∀ j, j ≤ fuel → ∃ e, (runAttemptValidated ex step wfId ctx h (attempt + j)).1 =
        Except.error e) →
      ∃ e, (retryLoop ex step wfId ctx h fuel attempt).1 = (Except.error e, attempt + fuel) := by
  intro fuel
  induction fuel with
  | zero =>
    intro attempt herr
    obtain ⟨e, he⟩ := herr 0 (Nat.le_refl 0)
    rw [Nat.add_zero] at he
    rw [Nat.add_zero]
    exact ⟨e, retryLoop_fst_of_error_zero ex step wfId ctx h attempt e he⟩
  | succ fuel ih =>
    intro attempt herr
    obtain ⟨e0, he0⟩ := herr 0 (Nat.zero_le _)
    rw [Nat.add_zero] at he0
    have herr' : ∀ j, j ≤ fuel →
        ∃ e, (runAttemptValidated ex step wfId ctx h (attempt + 1 + j)).1 =
          Except.error e := by
      intro j hj
      obtain ⟨e, he⟩ := herr (j + 1) (Nat.succ_le_succ hj)
      exact ⟨e, by rw [show attempt + 1 + j = attempt + (j + 1) from by omega]; exact he⟩
    obtain ⟨e, he⟩ := ih (attempt + 1) herr'
    refine ⟨e, ?_⟩
    rw [retryLoop_fst_of_error_succ ex step wfId ctx h fuel attempt e0 he0]
    rw [show attempt + 1 + fuel = attempt + (fuel + 1) from by omega] at he
    exact he

theorem retryLoop_mem_first_events (ex : Executor) (step : StepConfig) (wfId : Option String)
    (ctx : Ctx) (h : HandlerBehavior) (fuel attempt : Nat) (e : Event)
    (he : e ∈ (runAttemptValidated ex step wfId ctx h attempt).2) :
    e ∈ (retryLoop ex step wfId ctx h fuel attempt).2 := by
  rcases hres : (runAttemptValidated ex step wfId ctx h attempt).1 with er | out
  · cases fuel with
    | zero => rw [retryLoop_snd_of_error_zero ex step wfId ctx h attempt er hres]; exact he
    | succ fuel =>
      rw [retryLoop_snd_of_error_succ ex step wfId ctx h fuel attempt er hres,
        List.mem_append]
      exact Or.inl he
  · rw [retryLoop_snd_of_ok ex step wfId ctx h fuel attempt out hres]
    exact he

theorem retryLoop_retry_handlerCall (ex : Executor) (step : StepConfig) (wfId : Option String)
    (ctx : Ctx) (h : HandlerBehavior) (fuel attempt : Nat) (e : String)
    (herr : (runAttemptValidated ex step wfId ctx h attempt).1 = Except.error e)
    (hen : stageEnterRes ex wfId step.id (attempt + 1) = Except.ok ()) :
    Event.handlerCall step.id (attempt + 1) ∈
      (retryLoop ex step wfId ctx h (fuel + 1) attempt).2 := by
  rw [retryLoop_snd_of_error_succ ex step wfId ctx h fuel attempt e herr, List.mem_append]
  right
  apply retryLoop_mem_first_events
  rw [runAttemptValidated_snd]
  exact runAttempt_handlerCall_mem ex step wfId ctx h (attempt + 1) hen

/-! ### Step-level lemmas -/

theorem execStep_of_cond_false (ex : Executor) (step : StepConfig) (wfId : Option String)
    (ctx : Ctx) (hcond : condPasses step ctx = false) :
    execStep ex step wfId ctx =
      ({ step_id := step.id, status := StepStatus.skipped, output := [], error := none,
         tokens_used := Value.vInt 0, retries := 0 }, []) := by
  unfold execStep
  rw [hcond]
  simp

theorem execStep_of_input_error (ex : Executor) (step : StepConfig) (wfId : Option String)
    (ctx : Ctx) (e : String) (hcond : condPasses step ctx = true)
    (hin : inputValidation ex step ctx = Except.error e) :
    execStep ex step wfId ctx =
      ({ step_id := step.id, status := StepStatus.failed, output := [],
         error := some ("Input validation failed: " ++ e), tokens_used := Value.vInt 0,
         retries := 0 }, []) := by
  unfold execStep
  rw [hcond, hin]
  simp

theorem execStep_of_no_handler (ex : Executor) (step : StepConfig) (wfId : Option String)
    (ctx : Ctx) (hcond : condPasses step ctx = true)
    (hin : inputValidation ex step ctx = Except.ok ())
    (hh : ex.handlers step.type = none) :
    execStep ex step wfId ctx =
      ({ step_id := step.id, status := StepStatus.failed, output := [],
         error := some ("Unknown step type: " ++ step.type), tokens_used := Value.vInt 0,
         retries := 0 }, []) := by
  unfold execStep
  rw [hcond, hin, hh]
  simp

theorem execStep_of_handler (ex : Executor) (step : StepConfig) (wfId : Option String)
    (ctx : Ctx) (h : HandlerBehavior) (hcond : condPasses step ctx = true)
    (hin : inputValidation ex step ctx = Except.ok ())
    (hh : ex.handlers step.type = some h) :
    execStep ex step wfId ctx =
      ((match (retryLoop ex step wfId ctx h step.max_retries 0).1 with
        | (Except.ok out, attempt) =>
          { step_id := step.id, status := StepStatus.success, output := out, error := none,
            tokens_used := rawTokens out, retries := attempt }
        | (Except.error e, attempt) =>
          { step_id := step.id, status := StepStatus.failed, output := [], error := some e,
            tokens_used := Value.vInt 0, retries := attempt }),
       (retryLoop ex step wfId ctx h step.max_retries 0).2) := by
  unfold execStep
  rw [hcond, hin, hh]
  simp only [not_true, if_false]
  rcases hr : (retryLoop ex step wfId ctx h step.max_retries 0).1 with ⟨res, attempt⟩
  cases res <;> simp [hr]

theorem execStep_of_retry_ok (ex : Executor) (step : StepConfig) (wfId : Option String)
    (ctx : Ctx) (h : HandlerBehavior) (out : OutputMap) (attempt : Nat)
    (hcond : condPasses step ctx = true)
    (hin : inputValidation ex step ctx = Except.ok ())
    (hh : ex.handlers step.type = some h)
    (hr : (retryLoop ex step wfId ctx h step.max_retries 0).1 = (Except.ok out, attempt)) :
    execStep ex step wfId ctx =
      ({ step_id := step.id, status := StepStatus.success, output := out, error := none,
         tokens_used := rawTokens out, retries := attempt },
       (retryLoop ex step wfId ctx h step.max_retries 0).2) := by
  rw [execStep_of_handler ex step wfId ctx h hcond hin hh, hr]

theorem execStep_of_retry_error (ex : Executor) (step : StepConfig) (wfId : Option String)
    (ctx : Ctx) (h : HandlerBehavior) (e : String) (attempt : Nat)
    (hcond : condPasses step ctx = true)
    (hin : inputValidation ex step ctx = Except.ok ())
    (hh : ex.handlers step.type = some h)
    (hr : (retryLoop ex step wfId ctx h step.max_retries 0).1 = (Except.error e, attempt)) :
    execStep ex step wfId ctx =
      ({ step_id := step.id, status := StepStatus.failed, output := [], error := some e,
         tokens_used := Value.vInt 0, retries := attempt },
       (retryLoop ex step wfId ctx h step.max_retries 0).2) := by
  rw [execStep_of_handler ex step wfId ctx h hcond hin hh, hr]

theorem execStep_events_shape (ex : Executor) (step : StepConfig) (wfId : Option String)
    (ctx : Ctx) :
    ∀ e ∈ (execStep ex step wfId ctx).2,
      e.stepIdOf = some step.id ∧ (staged ex wfId = false → e.isCheckpointCall = false) := by
  intro e he
  cases hcond : condPasses step ctx with
  | false => rw [execStep_of_cond_false ex step wfId ctx hcond] at he; simp at he
  | true =>
    rcases hin : inputValidation ex step ctx with er | u
    · rw [execStep_of_input_error ex step wfId ctx er hcond hin] at he; simp at he
    · cases u
      rcases hh : ex.handlers step.type with _ | h
      · rw [execStep_of_no_handler ex step wfId ctx hcond hin hh] at he; simp at he
      · rw [execStep_of_handler ex step wfId ctx h hcond hin hh] at he
        exact retryLoop_events_shape ex step wfId ctx h step.max_retries 0 e he

theorem execStep_failed_tokens (ex : Executor) (step : StepConfig) (wfId : Option String)
    (ctx : Ctx) (hst : (execStep ex step wfId ctx).1.status = StepStatus.failed) :
    (execStep ex step wfId ctx).1.tokens_used = Value.vInt 0 := by
  cases hcond : condPasses step ctx with
  | false => rw [execStep_of_cond_false ex step wfId ctx hcond]
  | true =>
    rcases hin : inputValidation ex step ctx with er | u
    · rw [execStep_of_input_error ex step wfId ctx er hcond hin]
    · cases u
      rcases hh : ex.handlers step.type with _ | h
      · rw [execStep_of_no_handler ex step wfId ctx hcond hin hh]
      · rcases hr : (retryLoop ex step wfId ctx h step.max_retries 0).1 with ⟨res, attempt⟩
        cases res with
        | ok out =>
          rw [execStep_of_retry_ok ex step wfId ctx h out attempt hcond hin hh hr] at hst
          exact absurd hst (by simp)
        | error er =>
          rw [execStep_of_retry_error ex step wfId ctx h er attempt hcond hin hh hr]

theorem pyTokensInt_zero : pyTokensInt (Value.vInt 0) = Except.ok 0 := rfl

theorem recordGate_of_zero (ex : Executor) (s : StepConfig) (r : StepResult)
    (h : r.tokens_used = Value.vInt 0) : recordGate ex s r = Except.ok () := by
  unfold recordGate
  cases ex.budget_manager with
  | none => rfl
  | some b => rw [h]; rfl

/-! ### Step-loop lemmas -/

theorem runSteps_nil (ex : Executor) (wfId : Option String) (ctx : Ctx) :
    runSteps ex wfId [] ctx = ((LoopExit.completed, ctx, [], 0), []) := rfl

theorem runSteps_cons_budget_error (ex : Executor) (wfId : Option String) (s : StepConfig)
    (rest : List StepConfig) (ctx : Ctx) (e : String)
    (hbg : budgetGate ex s = Except.error e) :
    runSteps ex wfId (s :: rest) ctx = ((LoopExit.raised e, ctx, [], 0), []) := by
  unfold runSteps
  rw [hbg]

theorem runSteps_cons_budget_false (ex : Executor) (wfId : Option String) (s : StepConfig)
    (rest : List StepConfig) (ctx : Ctx)
    (hbg : budgetGate ex s = Except.ok false) :
    runSteps ex wfId (s :: rest) ctx = ((LoopExit.budget_denied, ctx, [], 0), []) := by
  unfold runSteps
  rw [hbg]

theorem runSteps_cons_tokens_error (ex : Executor) (wfId : Option String) (s : StepConfig)
    (rest : List StepConfig) (ctx : Ctx) (e : String)
    (hbg : budgetGate ex s = Except.ok true)
    (htok : pyTokensInt (execStep ex s wfId ctx).1.tokens_used = Except.error e) :
    runSteps ex wfId (s :: rest) ctx =
      ((LoopExit.raised e, ctx, [(execStep ex s wfId ctx).1], 0),
       (execStep ex s wfId ctx).2) := by
  unfold runSteps
  rw [hbg]
  simp only []
  simp only [htok]

theorem runSteps_cons_record_error (ex : Executor) (wfId : Option String) (s : StepConfig)
    (rest : List StepConfig) (ctx : Ctx) (e : String) (tok : Int)
    (hbg : budgetGate ex s = Except.ok true)
    (htok : pyTokensInt (execStep ex s wfId ctx).1.tokens_used = Except.ok tok)
    (hrg : recordGate ex s (execStep ex s wfId ctx).1 = Except.error e) :
    runSteps ex wfId (s :: rest) ctx =
      ((LoopExit.raised e, ctx, [(execStep ex s wfId ctx).1], tok),
       (execStep ex s wfId ctx).2) := by
  unfold runSteps
  rw [hbg]
  simp only []
  simp only [htok, hrg]

theorem runSteps_cons_abort (ex : Executor) (wfId : Option String) (s : StepConfig)
    (rest : List StepConfig) (ctx : Ctx) (tok : Int)
    (hbg : budgetGate ex s = Except.ok true)
    (htok : pyTokensInt (execStep ex s wfId ctx).1.tokens_used = Except.ok tok)
    (hrg : recordGate ex s (execStep ex s wfId ctx).1 = Except.ok ())
    (hst : (execStep ex s wfId ctx).1.status = StepStatus.failed)
    (hab : s.on_failure = "abort") :
    runSteps ex wfId (s :: rest) ctx =
      ((LoopExit.aborted (abortMsg s (execStep ex s wfId ctx).1), ctx,
        [(execStep ex s wfId ctx).1], tok),
       (execStep ex s wfId ctx).2) := by
  unfold runSteps
  rw [hbg]
  simp only []
  simp only [htok, hrg]
  rw [if_pos ⟨hst, hab⟩]

theorem runSteps_cons_skip (ex : Executor) (wfId : Option String) (s : StepConfig)
    (rest : List StepConfig) (ctx : Ctx) (tok : Int)
    (hbg : budgetGate ex s = Except.ok true)
    (htok : pyTokensInt (execStep ex s wfId ctx).1.tokens_used = Except.ok tok)
    (hrg : recordGate ex s (execStep ex s wfId ctx).1 = Except.ok ())
    (hst : (execStep ex s wfId ctx).1.status = StepStatus.failed)
    (hsk : s.on_failure = "skip") :
    runSteps ex wfId (s :: rest) ctx =
      (((runSteps ex wfId rest ctx).1.1, (runSteps ex wfId rest ctx).1.2.1,
        (execStep ex s wfId ctx).1 :: (runSteps ex wfId rest ctx).1.2.2.1,
        tok + (runSteps ex wfId rest ctx).1.2.2.2),
       (execStep ex s wfId ctx).2 ++ (runSteps ex wfId rest ctx).2) := by
  conv_lhs => unfold runSteps
  rw [hbg]
  simp only []
  simp only [htok, hrg]
  rw [if_neg (fun hc => by rw [hsk] at hc; exact absurd hc.2 (by decide)),
    if_pos ⟨hst, hsk⟩]

theorem runSteps_cons_merge (ex : Executor) (wfId : Option String) (s : StepConfig)
    (rest : List StepConfig) (ctx : Ctx) (tok : Int)
    (hbg : budgetGate ex s = Except.ok true)
    (htok : pyTokensInt (execStep ex s wfId ctx).1.tokens_used = Except.ok tok)
    (hrg : recordGate ex s (execStep ex s wfId ctx).1 = Except.ok ())
    (hnab : ¬ ((execStep ex s wfId ctx).1.status = StepStatus.failed ∧ s.on_failure = "abort"))
    (hnsk : ¬ ((execStep ex s wfId ctx).1.status = StepStatus.failed ∧ s.on_failure = "skip")) :
    runSteps ex wfId (s :: rest) ctx =
      (((runSteps ex wfId rest (mergeOutputs ctx s.outputs (execStep ex s wfId ctx).1.output)).1.1,
        (runSteps ex wfId rest (mergeOutputs ctx s.outputs (execStep ex s wfId ctx).1.output)).1.2.1,
        (execStep ex s wfId ctx).1 ::
          (runSteps ex wfId rest (mergeOutputs ctx s.outputs (execStep ex s wfId ctx).1.output)).1.2.2.1,
        tok +
          (runSteps ex wfId rest (mergeOutputs ctx s.outputs (execStep ex s wfId ctx).1.output)).1.2.2.2),
       (execStep ex s wfId ctx).2 ++
         (runSteps ex wfId rest (mergeOutputs ctx s.outputs (execStep ex s wfId ctx).1.output)).2) := by
  conv_lhs => unfold runSteps
  rw [hbg]
  simp only []
  simp only [htok, hrg]
  rw [if_neg hnab, if_neg hnsk]

theorem runSteps_events_shape (ex : Executor) (wfId : Option String) :
    ∀ (L : List StepConfig) (ctx : Ctx), ∀ e ∈ (runSteps ex wfId L ctx).2,
      (∃ s ∈ L, e.stepIdOf = some s.id) ∧
      (staged ex wfId = false → e.isCheckpointCall = false) := by
  intro L
  induction L with
  | nil => intro ctx e he; rw [runSteps_nil] at he; simp at he
  | cons s rest ih =>
    intro ctx e he
    rcases hbg : budgetGate ex s with er | b
    · rw [runSteps_cons_budget_error ex wfId s rest ctx er hbg] at he; simp at he
    · cases b with
      | false => rw [runSteps_cons_budget_false ex wfId s rest ctx hbg] at he; simp at he
      | true =>
        rcases htok : pyTokensInt (execStep ex s wfId ctx).1.tokens_used with er | tok
        · rw [runSteps_cons_tokens_error ex wfId s rest ctx er hbg htok] at he
          obtain ⟨h1, h2⟩ := execStep_events_shape ex s wfId ctx e he
          exact ⟨⟨s, List.mem_cons_self _ _, h1⟩, h2⟩
        · rcases hrg : recordGate ex s (execStep ex s wfId ctx).1 with er | u
          · rw [runSteps_cons_record_error ex wfId s rest ctx er tok hbg htok hrg] at he
            obtain ⟨h1, h2⟩ := execStep_events_shape ex s wfId ctx e he
            exact ⟨⟨s, List.mem_cons_self _ _, h1⟩, h2⟩
          · cases u
            by_cases hab :
                (execStep ex s wfId ctx).1.status = StepStatus.failed ∧ s.on_failure = "abort"
            · rw [runSteps_cons_abort ex wfId s rest ctx tok hbg htok hrg hab.1 hab.2] at he
              obtain ⟨h1, h2⟩ := execStep_events_shape ex s wfId ctx e he
              exact ⟨⟨s, List.mem_cons_self _ _, h1⟩, h2⟩
            · by_cases hsk :
                  (execStep ex s wfId ctx).1.status = StepStatus.failed ∧ s.on_failure = "skip"
              · rw [runSteps_cons_skip ex wfId s rest ctx tok hbg htok hrg hsk.1 hsk.2] at he
                rw [show (((runSteps ex wfId rest ctx).1.1, (runSteps ex wfId rest ctx).1.2.1,
                      (execStep ex s wfId ctx).1 :: (runSteps ex wfId rest ctx).1.2.2.1,
                      tok + (runSteps ex wfId rest ctx).1.2.2.2),
                     (execStep ex s wfId ctx).2 ++ (runSteps ex wfId rest ctx).2).2 =
                    (execStep ex s wfId ctx).2 ++ (runSteps ex wfId rest ctx).2 from rfl,
                  List.mem_append] at he
                rcases he with he | he
                · obtain ⟨h1, h2⟩ := execStep_events_shape ex s wfId ctx e he
                  exact ⟨⟨s, List.mem_cons_self _ _, h1⟩, h2⟩
                · obtain ⟨⟨t, ht, h1⟩, h2⟩ := ih ctx e he
                  exact ⟨⟨t, List.mem_cons_of_mem _ ht, h1⟩, h2⟩
              · rw [runSteps_cons_merge ex wfId s rest ctx tok hbg htok hrg hab hsk] at he
                rw [show ∀ (p : LoopExit × Ctx × List StepResult × Int) (l : List Event),
                      ((p, l) : (LoopExit × Ctx × List StepResult × Int) × List Event).2 = l
                    from fun _ _ => rfl, List.mem_append] at he
                rcases he with he | he
                · obtain ⟨h1, h2⟩ := execStep_events_shape ex s wfId ctx e he
                  exact ⟨⟨s, List.mem_cons_self _ _, h1⟩, h2⟩
                · obtain ⟨⟨t, ht, h1⟩, h2⟩ :=
                    ih (mergeOutputs ctx s.outputs (execStep ex s wfId ctx).1.output) e he
                  exact ⟨⟨t, List.mem_cons_of_mem _ ht, h1⟩, h2⟩

/-! ### Workflow-level lemmas -/

theorem staged_of_no_manager (ex : Executor) (wfId : Option String)
    (h : ex.checkpoint_manager = none) : staged ex wfId = false := by
  unfold staged
  rw [h]

theorem finalizeCheckpoint_of_no_manager (ex : Executor) (wfId : Option String)
    (exit : LoopExit) (h : ex.checkpoint_manager = none) :
    finalizeCheckpoint ex wfId exit = (Except.ok (), []) := by
  unfold finalizeCheckpoint
  rw [h]

theorem finalizeCheckpoint_events_stepIdOf (ex : Executor) (wfId : Option String)
    (exit : LoopExit) :
    ∀ e ∈ (finalizeCheckpoint ex wfId exit).2, e.stepIdOf = none := by
  intro e he
  unfold finalizeCheckpoint at he
  rcases hcm : ex.checkpoint_manager with _ | cb <;> rw [hcm] at he
  · simp at he
  · rcases hw : wfId with _ | w <;> rw [hw] at he
    · simp at he
    · cases exit <;> rw [List.mem_singleton] at he <;> subst he <;> rfl

theorem executeFrom_snd (ex : Executor) (wf : WorkflowConfig) (ctx0 : Ctx)
    (wfId : Option String) (rf : Option String) (ev0 : List Event) :
    (executeFrom ex wf ctx0 wfId rf ev0).2 =
      ev0 ++ (runSteps ex wfId (wf.steps.drop (resumeIndex wf.steps rf)) ctx0).2 ++
        (finalizeCheckpoint ex wfId
          (runSteps ex wfId (wf.steps.drop (resumeIndex wf.steps rf)) ctx0).1.1).2 := by
  unfold executeFrom
  rcases hfin : (finalizeCheckpoint ex wfId
      (runSteps ex wfId (wf.steps.drop (resumeIndex wf.steps rf)) ctx0).1.1).1 with er | u <;>
    simp only [hfin]

theorem executeFrom_events_shape (ex : Executor) (wf : WorkflowConfig) (ctx0 : Ctx)
    (wfId : Option String) (rf : Option String) (ev0 : List Event) :
    ∀ e ∈ (executeFrom ex wf ctx0 wfId rf ev0).2,
      e ∈ ev0 ∨ e.stepIdOf = none ∨
        ∃ s ∈ wf.steps.drop (resumeIndex wf.steps rf), e.stepIdOf = some s.id := by
  intro e he
  rw [executeFrom_snd, List.append_assoc, List.mem_append] at he
  rcases he with he | he
  · exact Or.inl he
  · rw [List.mem_append] at he
    rcases he with he | he
    · obtain ⟨⟨s, hs, h1⟩, _⟩ := runSteps_events_shape ex wfId _ ctx0 e he
      exact Or.inr (Or.inr ⟨s, hs, h1⟩)
    · exact Or.inr (Or.inl (finalizeCheckpoint_events_stepIdOf ex wfId _ e he))

theorem execute_events_shape (ex : Executor) (wf : WorkflowConfig) (inputs : Ctx)
    (rf : Option String) :
    ∀ e ∈ (execute ex wf inputs rf).2,
      e.stepIdOf = none ∨
        ∃ s ∈ wf.steps.drop (resumeIndex wf.steps rf), e.stepIdOf = some s.id := by
  intro e he
  unfold execute at he
  rcases hin : applyRequiredInputs wf.inputs inputs with er | ctx0 <;> simp only [hin] at he
  · simp at he
  · rcases hcm : ex.checkpoint_manager with _ | cb <;> simp only [hcm] at he
    · rcases executeFrom_events_shape ex wf ctx0 none rf [] e he with h | h | h
      · simp at h
      · exact Or.inl h
      · exact Or.inr h
    · rcases hst : cb.start_workflow wf.name ctx0 with er | wfId <;> simp only [hst] at he
      · rw [List.mem_singleton] at he
        subst he
        exact Or.inl rfl
      · rcases executeFrom_events_shape ex wf ctx0 wfId rf
            [Event.ckStartWorkflow wf.name] e he with h | h | h
        · rw [List.mem_singleton] at h
          subst h
          exact Or.inl rfl
        · exact Or.inl h
        · exact Or.inr h

theorem execute_no_ck_events (ex : Executor) (wf : WorkflowConfig) (inputs : Ctx)
    (rf : Option String) (hcm : ex.checkpoint_manager = none) :
    ∀ e ∈ (execute ex wf inputs rf).2, e.isCheckpointCall = false := by
  intro e he
  unfold execute at he
  rcases hin : applyRequiredInputs wf.inputs inputs with er | ctx0 <;> simp only [hin] at he
  · simp at he
  · simp only [hcm] at he
    rw [executeFrom_snd, List.append_assoc, List.mem_append] at he
    rcases he with he | he
    · simp at he
    · rw [finalizeCheckpoint_of_no_manager ex none _ hcm] at he
      simp only [List.append_nil] at he
      obtain ⟨_, h2⟩ := runSteps_events_shape ex none _ ctx0 e he
      exact h2 (staged_of_no_manager ex none hcm)

theorem exitStatusError_cases (exit : LoopExit) :
    ((exitStatusError exit).1 = "success" ∧ (exitStatusError exit).2 = none) ∨
      ((exitStatusError exit).1 = "failed" ∧ (exitStatusError exit).2.isSome) := by
  cases exit
  · exact Or.inl ⟨rfl, rfl⟩
  · exact Or.inr ⟨rfl, rfl⟩
  · exact Or.inr ⟨rfl, rfl⟩
  · exact Or.inr ⟨rfl, rfl⟩

theorem executeFrom_ok_status (ex : Executor) (wf : WorkflowConfig) (ctx0 : Ctx)
    (wfId : Option String) (rf : Option String) (ev0 : List Event) (r : ExecutionResult)
    (h : (executeFrom ex wf ctx0 wfId rf ev0).1 = Except.ok r) :
    (r.status = "success" ∧ r.error = none) ∨ (r.status = "failed" ∧ r.error.isSome) := by
  unfold executeFrom at h
  rcases hfin : (finalizeCheckpoint ex wfId
      (runSteps ex wfId (wf.steps.drop (resumeIndex wf.steps rf)) ctx0).1.1).1 with er | u <;>
    simp only [hfin] at h
  · exact absurd h (by simp)
  · injection h with h2
    subst h2
    exact exitStatusError_cases _

theorem execute_ok_status (ex : Executor) (wf : WorkflowConfig) (inputs : Ctx)
    (rf : Option String) (r : ExecutionResult) (ev : List Event)
    (h : execute ex wf inputs rf = (Except.ok r, ev)) :
    (r.status = "success" ∧ r.error = none) ∨ (r.status = "failed" ∧ r.error.isSome) := by
  unfold execute at h
  rcases hin : applyRequiredInputs wf.inputs inputs with er | ctx0 <;> simp only [hin] at h
  · have h1 := congrArg Prod.fst h
    simp only [Prod.fst] at h1
    injection h1 with h2
    subst h2
    exact Or.inr ⟨rfl, rfl⟩
  · rcases hcm : ex.checkpoint_manager with _ | cb <;> simp only [hcm] at h
    · exact executeFrom_ok_status ex wf ctx0 none rf [] r (congrArg Prod.fst h)
    · rcases hst : cb.start_workflow wf.name ctx0 with er | wfId <;> simp only [hst] at h
      · have h1 := congrArg Prod.fst h
        simp only [Prod.fst] at h1
        exact absurd h1 (by simp)
      · exact executeFrom_ok_status ex wf ctx0 wfId rf _ r (congrArg Prod.fst h)

/-! ### Resume-index lemmas -/

theorem findIndexFrom_not_found (sid : String) :
    ∀ (steps : List StepConfig) (i : Nat), sid ∉ steps.map StepConfig.id →
      findIndexFrom steps sid i = 0 := by
  intro steps
  induction steps with
  | nil => intro i _; rfl
  | cons st rest ih =>
    intro i hn
    have h1 : ¬ st.id = sid := fun he => hn (by rw [List.map_cons, ← he]; exact List.mem_cons_self _ _)
    unfold findIndexFrom
    rw [if_neg h1]
    exact ih (i + 1) (fun hm => hn (by rw [List.map_cons]; exact List.mem_cons_of_mem _ hm))

theorem findIndexFrom_found (sid : String) :
    ∀ (steps : List StepConfig) (i : Nat), sid ∈ steps.map StepConfig.id →
      findIndexFrom steps sid i = i + List.indexOf sid (steps.map StepConfig.id) := by
  intro steps
  induction steps with
  | nil => intro i h; simp at h
  | cons st rest ih =>
    intro i h
    unfold findIndexFrom
    by_cases he : st.id = sid
    · rw [if_pos he, List.map_cons, List.indexOf_cons_eq _ he, Nat.add_zero]
    · rw [if_neg he]
      have hm : sid ∈ rest.map StepConfig.id := by
        rw [List.map_cons] at h
        rcases List.mem_cons.mp h with h1 | h1
        · exact absurd h1.symm he
        · exact h1
      rw [ih (i + 1) hm, List.map_cons, List.indexOf_cons_ne _ he]
      omega

theorem resumeIndex_of_mem (steps : List StepConfig) (S : String)
    (h : S ∈ steps.map StepConfig.id) :
    resumeIndex steps (some S) = List.indexOf S (steps.map StepConfig.id) := by
  show findIndexFrom steps S 0 = _
  rw [findIndexFrom_found S steps 0 h, Nat.zero_add]

theorem resumeIndex_of_not_mem (steps : List StepConfig) (S : String)
    (h : S ∉ steps.map StepConfig.id) :
    resumeIndex steps (some S) = 0 := by
  show findIndexFrom steps S 0 = 0
  exact findIndexFrom_not_found S steps 0 h

theorem executeFrom_congr_resume (ex : Executor) (wf : WorkflowConfig) (ctx0 : Ctx)
    (wfId : Option String) (rf1 rf2 : Option String) (ev0 : List Event)
    (hidx : resumeIndex wf.steps rf1 = resumeIndex wf.steps rf2) :
    executeFrom ex wf ctx0 wfId rf1 ev0 = executeFrom ex wf ctx0 wfId rf2 ev0 := by
  unfold executeFrom
  rw [hidx]

/-! ### Parallel-block lemmas -/

theorem executeParallelAux_log_mem (handlers : String → Option HandlerBehavior) (ctx : Ctx) :
    ∀ (subs : List StepConfig) (acc : List (String × OutputMap)), ∀ s ∈ subs,
      (handlers s.type).isSome →
      s.id ∈ (executeParallelAux handlers ctx subs acc).2 := by
  intro subs
  induction subs with
  | nil => intro acc s hs; simp at hs
  | cons t rest ih =>
    intro acc s hs hreg
    rcases List.mem_cons.mp hs with rfl | hs'
    · rcases hh : handlers s.type with _ | h
      · rw [hh] at hreg; simp at hreg
      · unfold executeParallelAux
        rw [hh]
        exact List.mem_cons_self _ _
    · rcases hh : handlers t.type with _ | h
      · unfold executeParallelAux
        rw [hh]
        exact ih acc s hs' hreg
      · unfold executeParallelAux
        rw [hh]
        exact List.mem_cons_of_mem _ (ih _ s hs' hreg)

theorem executeParallelAux_preserves_key (handlers : String → Option HandlerBehavior)
    (ctx : Ctx) :
    ∀ (subs : List StepConfig) (acc : List (String × OutputMap)) (k : String) (v : OutputMap),
      dictGet acc k = some v →
      ∃ w, dictGet (executeParallelAux handlers ctx subs acc).1 k = some w := by
  intro subs
  induction subs with
  | nil => intro acc k v hv; exact ⟨v, hv⟩
  | cons t rest ih =>
    intro acc k v hv
    rcases hh : handlers t.type with _ | h
    · unfold executeParallelAux
      rw [hh]
      exact ih acc k v hv
    · unfold executeParallelAux
      rw [hh]
      by_cases hk : t.id = k
      · apply ih _ k
          (match h t ctx 0 with
           | Except.ok out => out
           | Except.error e => [("error", Value.vStr e)])
        rw [dictGet_dictSet, if_pos hk]
      · refine ih _ k v ?_
        rw [dictGet_dictSet, if_neg hk]
        exact hv

theorem executeParallelAux_key_mem (handlers : String → Option HandlerBehavior) (ctx : Ctx) :
    ∀ (subs : List StepConfig) (acc : List (String × OutputMap)), ∀ s ∈ subs,
      (handlers s.type).isSome →
      ∃ w, dictGet (executeParallelAux handlers ctx subs acc).1 s.id = some w := by
  intro subs
  induction subs with
  | nil => intro acc s hs; simp at hs
  | cons t rest ih =>
    intro acc s hs hreg
    rcases List.mem_cons.mp hs with rfl | hs'
    · rcases hh : handlers s.type with _ | h
      · rw [hh] at hreg; simp at hreg
      · unfold executeParallelAux
        rw [hh]
        apply executeParallelAux_preserves_key handlers ctx rest _ s.id
        rw [dictGet_dictSet, if_pos rfl]
    · rcases hh : handlers t.type with _ | h
      · unfold executeParallelAux
        rw [hh]
        exact ih acc s hs' hreg
      · unfold executeParallelAux
        rw [hh]
        exact ih _ s hs' hreg

theorem executeParallelAux_get_unwritten (handlers : String → Option HandlerBehavior)
    (ctx : Ctx) :
    ∀ (subs : List StepConfig) (acc : List (String × OutputMap)) (k : String),
      (∀ s ∈ subs, (handlers s.type).isSome → s.id ≠ k) →
      dictGet (executeParallelAux handlers ctx subs acc).1 k = dictGet acc k := by
  intro subs
  induction subs with
  | nil => intro acc k _; rfl
  | cons t rest ih =>
    intro acc k hw
    rcases hh : handlers t.type with _ | h
    · unfold executeParallelAux
      rw [hh]
      exact ih acc k (fun s hs => hw s (List.mem_cons_of_mem _ hs))
    · unfold executeParallelAux
      rw [hh]
      rw [ih _ k (fun s hs => hw s (List.mem_cons_of_mem _ hs)), dictGet_dictSet,
        if_neg (hw t (List.mem_cons_self _ _) (by rw [hh]; rfl))]

theorem executeParallelAux_error_entry (handlers : String → Option HandlerBehavior) (ctx : Ctx) :
    ∀ (subs : List StepConfig) (acc : List (String × OutputMap)),
      (subs.map StepConfig.id).Nodup →
      ∀ s ∈ subs, ∀ (h : HandlerBehavior) (e : String),
        handlers s.type = some h → h s ctx 0 = Except.error e →
        dictGet (executeParallelAux handlers ctx subs acc).1 s.id =
          some [("error", Value.vStr e)] := by
  intro subs
  induction subs with
  | nil => intro acc _ s hs; simp at hs
  | cons t rest ih =>
    intro acc hnd s hs h e hh herr
    rw [List.map_cons, List.nodup_cons] at hnd
    rcases List.mem_cons.mp hs with rfl | hs'
    · have hget := executeParallelAux_get_unwritten handlers ctx rest
        (dictSet acc s.id [("error", Value.vStr e)]) s.id
        (fun s' hs' _ => fun he => hnd.1 (he ▸ List.mem_map_of_mem StepConfig.id hs'))
      rw [dictGet_dictSet, if_pos rfl] at hget
      unfold executeParallelAux
      simp only [hh, herr]
      exact hget
    · rcases hht : handlers t.type with _ | ht
      · unfold executeParallelAux
        rw [hht]
        exact ih acc hnd.2 s hs' h e hh herr
      · unfold executeParallelAux
        rw [hht]
        exact ih _ hnd.2 s hs' h e hh herr

/-! ### Claim theorems -/

/-- C5: in the step loop, a step whose `budgetGate` admits it and whose
`execStep` comes back FAILED halts everything after it when
`on_failure = "abort"` — the loop result equals the run of that step alone, so
no handler of any later step is invoked and the loop returns — and when
`on_failure = "skip"` the remaining steps are run against the *unchanged*
context (the failed step's declared outputs are never merged), with the failed
step's result and events still recorded. -/
theorem C5_failure_policies (ex : Executor) (wfId : Option String) (s : StepConfig)
    (rest : List StepConfig) (ctx : Ctx)
    (hbg : budgetGate ex s = Except.ok true)
    (hst : (execStep ex s wfId ctx).1.status = StepStatus.failed) :
    (s.on_failure = "abort" →
      runSteps ex wfId (s :: rest) ctx = runSteps ex wfId [s] ctx)
    ∧ (s.on_failure = "skip" →
      runSteps ex wfId (s :: rest) ctx =
        (((runSteps ex wfId rest ctx).1.1, (runSteps ex wfId rest ctx).1.2.1,
          (execStep ex s wfId ctx).1 :: (runSteps ex wfId rest ctx).1.2.2.1,
          0 + (runSteps ex wfId rest ctx).1.2.2.2),
         (execStep ex s wfId ctx).2 ++ (runSteps ex wfId rest ctx).2)) := by
  have h0 : (execStep ex s wfId ctx).1.tokens_used = Value.vInt 0 :=
    execStep_failed_tokens ex s wfId ctx hst
  have htok : pyTokensInt (execStep ex s wfId ctx).1.tokens_used = Except.ok 0 := by
    rw [h0]
    exact pyTokensInt_zero
  have hrg : recordGate ex s (execStep ex s wfId ctx).1 = Except.ok () :=
    recordGate_of_zero ex s _ h0
  constructor
  · intro hab
    rw [runSteps_cons_abort ex wfId s rest ctx 0 hbg htok hrg hst hab,
      runSteps_cons_abort ex wfId s [] ctx 0 hbg htok hrg hst hab]
  · intro hsk
    exact runSteps_cons_skip ex wfId s rest ctx 0 hbg htok hrg hst hsk

/-- Witness for C5 at a concrete aborting step followed by a second step. -/
theorem C5_failure_policies_witness :
    runSteps (bareEx boomHandler) none [baseStep, secondStep] [] =
      runSteps (bareEx boomHandler) none [baseStep] [] :=
  (C5_failure_policies (bareEx boomHandler) none baseStep [secondStep] [] rfl rfl).1 rfl

/-- C6: a step allowing `max_retries ≥ 1` retries whose handler raises on its
first `max_retries − 1` invocations and returns successfully on the next one
(with condition, contracts and checkpoint stage all passing) ends SUCCESS with
`retries = max_retries − 1`. -/
theorem C6_retry_then_success (ex : Executor) (step : StepConfig) (wfId : Option String)
    (ctx : Ctx) (h : HandlerBehavior) (out : OutputMap)
    (hmr : 1 ≤ step.max_retries)
    (hcond : condPasses step ctx = true)
    (hin : inputValidation ex step ctx = Except.ok ())
    (hh : ex.handlers step.type = some h)
    (hen : ∀ a, stageEnterRes ex wfId step.id a = Except.ok ())
    (hex : ∀ a, stageExitRes ex wfId step.id a = Except.ok ())
    (hflaky : ∀ a, a < step.max_retries - 1 → ∃ e, h step ctx a = Except.error e)
    (hsucc : h step ctx (step.max_retries - 1) = Except.ok out)
    (hov : outputValidation ex step out = Except.ok ()) :
    (execStep ex step wfId ctx).1.status = StepStatus.success ∧
    (execStep ex step wfId ctx).1.retries = step.max_retries - 1 := by
  have hra : ∀ a, (runAttempt ex step wfId ctx h a).1 = h step ctx a := fun a =>
    runAttempt_fst_of_stage_ok ex step wfId ctx h a (hen a) (hex a)
  have herr : ∀ j, j < step.max_retries - 1 →
      ∃ e, (runAttemptValidated ex step wfId ctx h (0 + j)).1 = Except.error e := by
    intro j hj
    obtain ⟨e, he⟩ := hflaky j hj
    refine ⟨e, ?_⟩
    rw [Nat.zero_add, runAttemptValidated_fst, hra j, he]
  have hok : (runAttemptValidated ex step wfId ctx h (0 + (step.max_retries - 1))).1 =
      Except.ok out := by
    rw [Nat.zero_add, runAttemptValidated_fst, hra (step.max_retries - 1), hsucc]
    simp [hov]
  have hloop := retryLoop_ok_at ex step wfId ctx h (step.max_retries - 1)
    step.max_retries 0 out (by omega) herr hok
  rw [Nat.zero_add] at hloop
  rw [execStep_of_retry_ok ex step wfId ctx h out (step.max_retries - 1) hcond hin hh hloop]
  exact ⟨rfl, rfl⟩

/-- Witness for C6: a handler failing once then succeeding, `max_retries = 2`. -/
theorem C6_retry_then_success_witness :
    (execStep (bareEx flakyHandler) retryStep none []).1.status = StepStatus.success ∧
    (execStep (bareEx flakyHandler) retryStep none []).1.retries = retryStep.max_retries - 1 :=
  C6_retry_then_success (bareEx flakyHandler) retryStep none [] flakyHandler
    [("y", Value.vInt 7)] (by decide) rfl rfl rfl (fun _ => rfl) (fun _ => rfl)
    (fun a ha => ⟨"flaky", by
      have ha0 : a = 0 := by
        have : retryStep.max_retries = 2 := rfl
        omega
      rw [ha0]
      rfl⟩)
    rfl rfl

/-- C7 counterexample: a handler returns the declared key "x" together with a
*string* `tokens_used`; the step completes with status SUCCESS, but the token
accumulation `total_tokens += tokens_used` raises TypeError before the merge,
failing the workflow — so the declared, produced key "x" is never copied into
the ExecutionContext and the collected workflow outputs are empty, against the
claim. -/
theorem C7_counterexample :
    tokStep.outputs = ["x"] ∧
    tokWf.outputs = ["x"] ∧
    strTokensHandler tokStep [] 0 =
      Except.ok [("x", Value.vInt 5), ("tokens_used", Value.vStr "abc")] ∧
    (execute (bareEx strTokensHandler) tokWf [] none).1 =
      Except.ok
        { workflow_name := "wt", status := "failed",
          steps := [{ step_id := "s1", status := StepStatus.success,
                      output := [("x", Value.vInt 5), ("tokens_used", Value.vStr "abc")],
                      error := none, tokens_used := Value.vStr "abc", retries := 0 }],
          outputs := [], total_tokens := 0,
          error := some "unsupported operand type(s) for +=: 'int' and 'str'" } :=
  ⟨rfl, rfl, rfl, rfl⟩

/-- C7 (amended): after a SUCCESS step *whose `tokens_used` value survives the
integer accumulation* (an int or bool, or absent — defaulting to 0), exactly
the declared output keys present in the handler's output are copied into the
context (`mergeOutputs`): a declared key the handler produced ends up with the
produced value; a key the handler did not produce, or one the step did not
declare, leaves the context binding unchanged (absent keys stay absent); and
in the step loop the remaining steps run against exactly that merged context.
A SUCCESS step with a non-addable `tokens_used` (string or `None`) instead
raises at the accumulation and the merge never happens, as the counterexample
shows. -/
theorem C7_output_merge :
    (∀ (ctx : Ctx) (declared : List String) (out : OutputMap) (k : String),
      (∀ v, k ∈ declared → dictGet out k = some v →
        dictGet (mergeOutputs ctx declared out) k = some v) ∧
      (dictGet out k = none → dictGet (mergeOutputs ctx declared out) k = dictGet ctx k) ∧
      (k ∉ declared → dictGet (mergeOutputs ctx declared out) k = dictGet ctx k)) ∧
    (∀ (ex : Executor) (wfId : Option String) (s : StepConfig) (rest : List StepConfig)
        (ctx : Ctx) (tok : Int),
      budgetGate ex s = Except.ok true →
      pyTokensInt (execStep ex s wfId ctx).1.tokens_used = Except.ok tok →
      recordGate ex s (execStep ex s wfId ctx).1 = Except.ok () →
      (execStep ex s wfId ctx).1.status = StepStatus.success →
      runSteps ex wfId (s :: rest) ctx =
        (((runSteps ex wfId rest
            (mergeOutputs ctx s.outputs (execStep ex s wfId ctx).1.output)).1.1,
          (runSteps ex wfId rest
            (mergeOutputs ctx s.outputs (execStep ex s wfId ctx).1.output)).1.2.1,
          (execStep ex s wfId ctx).1 ::
            (runSteps ex wfId rest
              (mergeOutputs ctx s.outputs (execStep ex s wfId ctx).1.output)).1.2.2.1,
          tok +
            (runSteps ex wfId rest
              (mergeOutputs ctx s.outputs (execStep ex s wfId ctx).1.output)).1.2.2.2),
         (execStep ex s wfId ctx).2 ++
           (runSteps ex wfId rest
             (mergeOutputs ctx s.outputs (execStep ex s wfId ctx).1.output)).2)) := by
  constructor
  · intro ctx declared out k
    refine ⟨?_, ?_, ?_⟩
    · intro v hk hv
      exact mergeOutputs_get_produced declared ctx out k v hk hv
    · intro hnone
      exact mergeOutputs_get_notProduced declared ctx out k hnone
    · intro hnd
      exact mergeOutputs_get_notDeclared declared ctx out k hnd
  · intro ex wfId s rest ctx tok hbg htok hrg hsucc
    exact runSteps_cons_merge ex wfId s rest ctx tok hbg htok hrg
      (fun hc => absurd (hsucc ▸ hc.1) (by decide))
      (fun hc => absurd (hsucc ▸ hc.1) (by decide))

/-- Witness for the amended C7: a declared produced key is copied with its
value. -/
theorem C7_output_merge_witness :
    dictGet (mergeOutputs [] ["x"] [("x", Value.vInt 5)]) "x" = some (Value.vInt 5) :=
  (C7_output_merge.1 [] ["x"] [("x", Value.vInt 5)] "x").1 (Value.vInt 5)
    (by decide) rfl

/-- C9: in `_execute_parallel`, every sub-step whose type has a registered
handler is invoked (its id appears in the invocation order) no matter what the
other handlers do — including when an earlier sibling's handler raised, since
the handler behaviours are universally quantified — and it owns an entry in
the results mapping; with distinct sub-step ids, a raising sub-step's recorded
entry under its own id is exactly the error dict for its exception. -/
theorem C9_parallel_isolation (handlers : String → Option HandlerBehavior)
    (subs : List StepConfig) (ctx : Ctx) :
    (∀ s ∈ subs, (handlers s.type).isSome →
      s.id ∈ (execute_parallel handlers subs ctx).2) ∧
    (∀ s ∈ subs, (handlers s.type).isSome →
      ∃ w, dictGet (execute_parallel handlers subs ctx).1 s.id = some w) ∧
    ((subs.map StepConfig.id).Nodup →
      ∀ s ∈ subs, ∀ (h : HandlerBehavior) (e : String),
        handlers s.type = some h → h s ctx 0 = Except.error e →
        dictGet (execute_parallel handlers subs ctx).1 s.id =
          some [("error", Value.vStr e)]) := by
  refine ⟨?_, ?_, ?_⟩
  · intro s hs hreg
    exact executeParallelAux_log_mem handlers ctx subs [] s hs hreg
  · intro s hs hreg
    exact executeParallelAux_key_mem handlers ctx subs [] s hs hreg
  · intro hnd s hs h e hh herr
    exact executeParallelAux_error_entry handlers ctx subs [] hnd s hs h e hh herr

/-- Witness for C9: a raising first sub-task is recorded as an error entry
while its siblings still run. -/
theorem C9_parallel_isolation_witness :
    dictGet (execute_parallel parHandlers [subA, subB, subC] []).1 "a" =
      some [("error", Value.vStr "boom")] :=
  (C9_parallel_isolation parHandlers [subA, subB, subC] []).2.2 (by decide)
    subA (List.mem_cons_self _ _) boomHandler "boom" rfl rfl

/-- C10: a `resume_from` id that matches no step makes `execute` behave
exactly as a run without `resume_from`: it silently starts from the first
step and runs the entire workflow, reporting no error about the unknown id. -/
theorem C10_resume_unknown (ex : Executor) (wf : WorkflowConfig) (inputs : Ctx) (S : String)
    (h : S ∉ wf.steps.map StepConfig.id) :
    execute ex wf inputs (some S) = execute ex wf inputs none := by
  have hidx : resumeIndex wf.steps (some S) = resumeIndex wf.steps none :=
    resumeIndex_of_not_mem wf.steps S h
  unfold execute
  rcases hin : applyRequiredInputs wf.inputs inputs with er | ctx0 <;> simp only [hin]
  · rcases hcm : ex.checkpoint_manager with _ | cb <;> simp only [hcm]
    · exact executeFrom_congr_resume ex wf ctx0 none (some S) none [] hidx
    · rcases hst : cb.start_workflow wf.name ctx0 with er | wfId <;> simp only [hst]
      exact executeFrom_congr_resume ex wf ctx0 wfId (some S) none _ hidx

/-- Witness for C10 at a concrete two-step workflow and an unknown id. -/
theorem C10_resume_unknown_witness :
    execute (bareEx okHandler) twoStepWf [] (some "zz") =
      execute (bareEx okHandler) twoStepWf [] none :=
  C10_resume_unknown (bareEx okHandler) twoStepWf [] "zz" (by decide)

/-- C8: with unique step ids, resuming from an id `S` occurring in the
workflow starts at the index of `S` (the first matching index) and no handler
of any step strictly before that index is ever invoked during the run. -/
theorem C8_resume_skips_earlier (ex : Executor) (wf : WorkflowConfig) (inputs : Ctx)
    (S : String)
    (hnd : (wf.steps.map StepConfig.id).Nodup)
    (hmem : S ∈ wf.steps.map StepConfig.id) :
    resumeIndex wf.steps (some S) = List.indexOf S (wf.steps.map StepConfig.id) ∧
    ∀ t ∈ wf.steps.take (resumeIndex wf.steps (some S)), ∀ a,
      Event.handlerCall t.id a ∉ (execute ex wf inputs (some S)).2 := by
  refine ⟨resumeIndex_of_mem wf.steps S hmem, ?_⟩
  intro t ht a hmemEv
  rcases execute_events_shape ex wf inputs (some S) _ hmemEv with h | ⟨s, hs, hid⟩
  · exact absurd h (by simp [Event.stepIdOf])
  · have hts : t.id = s.id := by
      have h2 : some t.id = some s.id := hid
      injection h2
    have h1 : t.id ∈ (wf.steps.map StepConfig.id).take (resumeIndex wf.steps (some S)) := by
      rw [← List.map_take]
      exact List.mem_map_of_mem StepConfig.id ht
    have h2 : t.id ∈ (wf.steps.map StepConfig.id).drop (resumeIndex wf.steps (some S)) := by
      rw [← List.map_drop, hts]
      exact List.mem_map_of_mem StepConfig.id hs
    have hnd2 : ((wf.steps.map StepConfig.id).take (resumeIndex wf.steps (some S)) ++
        (wf.steps.map StepConfig.id).drop (resumeIndex wf.steps (some S))).Nodup := by
      rw [List.take_append_drop]
      exact hnd
    exact (List.nodup_append.mp hnd2).2.2 h1 h2

/-- Witness for C8 at a concrete two-step workflow, resuming from "s2". -/
theorem C8_resume_skips_earlier_witness :
    resumeIndex twoStepWf.steps (some "s2") =
      List.indexOf "s2" (twoStepWf.steps.map StepConfig.id) ∧
    ∀ t ∈ twoStepWf.steps.take (resumeIndex twoStepWf.steps (some "s2")), ∀ a,
      Event.handlerCall t.id a ∉ (execute (bareEx okHandler) twoStepWf [] (some "s2")).2 :=
  C8_resume_skips_earlier (bareEx okHandler) twoStepWf [] "s2" (by decide) (by decide)

/-- C1 counterexample: a one-step workflow whose step fails and is skipped
(`on_failure = "skip"`) produces `ExecutionResult.status = "success"` — not
"partial" as the claim requires — with the FAILED step visible in the trace. -/
theorem C1_counterexample :
    skipStep.on_failure = "skip" ∧
    (execute (bareEx boomHandler) skipWf [] none).1 =
      Except.ok
        { workflow_name := "w", status := "success",
          steps := [{ step_id := "s1", status := StepStatus.failed, output := [],
                      error := some "boom", tokens_used := Value.vInt 0, retries := 0 }],
          outputs := [], total_tokens := 0, error := none } :=
  ⟨rfl, rfl⟩

/-- C1 (amended): the run's status is decided by how the step loop exited:
whenever `executeFrom` returns a result, its status is "success" (with no
error) exactly when the loop completed, and "failed" exactly when it exited
early — and the loop's exit is `aborted` precisely at a budget-admitted step
that failed under `on_failure = "abort"`, while a step that failed under
`on_failure = "skip"` leaves the exit equal to that of the remaining steps
(so a run whose failures are all skipped completes and reports "success");
a missing required input fails the run before any step; "partial" is never
produced. -/
theorem C1_status_characterization :
    (∀ (ex : Executor) (wf : WorkflowConfig) (ctx0 : Ctx) (wfId : Option String)
        (rf : Option String) (ev0 : List Event) (r : ExecutionResult) (ev : List Event),
      executeFrom ex wf ctx0 wfId rf ev0 = (Except.ok r, ev) →
      ((r.status = "success" ∧ r.error = none) ↔
        (runSteps ex wfId (wf.steps.drop (resumeIndex wf.steps rf)) ctx0).1.1 =
          LoopExit.completed) ∧
      (r.status = "failed" ↔
        ¬ (runSteps ex wfId (wf.steps.drop (resumeIndex wf.steps rf)) ctx0).1.1 =
          LoopExit.completed)) ∧
    (∀ (ex : Executor) (wfId : Option String) (s : StepConfig) (rest : List StepConfig)
        (ctx : Ctx),
      budgetGate ex s = Except.ok true →
      (execStep ex s wfId ctx).1.status = StepStatus.failed →
      (s.on_failure = "abort" →
        (runSteps ex wfId (s :: rest) ctx).1.1 =
          LoopExit.aborted (abortMsg s (execStep ex s wfId ctx).1)) ∧
      (s.on_failure = "skip" →
        (runSteps ex wfId (s :: rest) ctx).1.1 = (runSteps ex wfId rest ctx).1.1)) ∧
    (∀ (ex : Executor) (wf : WorkflowConfig) (inputs : Ctx) (rf : Option String)
        (msg : String),
      applyRequiredInputs wf.inputs inputs = Except.error msg →
      (execute ex wf inputs rf).1 =
        Except.ok { workflow_name := wf.name, status := "failed", steps := [],
                    outputs := [], total_tokens := 0, error := some msg }) := by
  refine ⟨?_, ?_, ?_⟩
  · intro ex wf ctx0 wfId rf ev0 r ev h
    unfold executeFrom at h
    rcases hfin : (finalizeCheckpoint ex wfId
        (runSteps ex wfId (wf.steps.drop (resumeIndex wf.steps rf)) ctx0).1.1).1 with er | u <;>
      simp only [hfin] at h
    · exact absurd (congrArg Prod.fst h) (by simp)
    · have h1 := congrArg Prod.fst h
      simp only [Prod.fst] at h1
      injection h1 with h2
      subst h2
      generalize (runSteps ex wfId (wf.steps.drop (resumeIndex wf.steps rf)) ctx0).1.1 = E
      cases E with
      | completed =>
        exact ⟨⟨fun _ => rfl, fun _ => ⟨rfl, rfl⟩⟩,
          ⟨fun hc => absurd hc (show ¬ (("success" : String) = "failed") by decide),
           fun hc => absurd rfl hc⟩⟩
      | budget_denied =>
        exact ⟨⟨fun hc =>
            absurd hc.1 (show ¬ (("failed" : String) = "success") by decide),
          fun hc => LoopExit.noConfusion hc⟩,
          ⟨fun _ hc => LoopExit.noConfusion hc, fun _ => rfl⟩⟩
      | aborted msg =>
        exact ⟨⟨fun hc =>
            absurd hc.1 (show ¬ (("failed" : String) = "success") by decide),
          fun hc => LoopExit.noConfusion hc⟩,
          ⟨fun _ hc => LoopExit.noConfusion hc, fun _ => rfl⟩⟩
      | raised e =>
        exact ⟨⟨fun hc =>
            absurd hc.1 (show ¬ (("failed" : String) = "success") by decide),
          fun hc => LoopExit.noConfusion hc⟩,
          ⟨fun _ hc => LoopExit.noConfusion hc, fun _ => rfl⟩⟩
  · intro ex wfId s rest ctx hbg hst
    have h0 : (execStep ex s wfId ctx).1.tokens_used = Value.vInt 0 :=
      execStep_failed_tokens ex s wfId ctx hst
    have htok : pyTokensInt (execStep ex s wfId ctx).1.tokens_used = Except.ok 0 := by
      rw [h0]
      exact pyTokensInt_zero
    have hrg : recordGate ex s (execStep ex s wfId ctx).1 = Except.ok () :=
      recordGate_of_zero ex s _ h0
    constructor
    · intro hab
      rw [runSteps_cons_abort ex wfId s rest ctx 0 hbg htok hrg hst hab]
    · intro hsk
      rw [runSteps_cons_skip ex wfId s rest ctx 0 hbg htok hrg hst hsk]
  · intro ex wf inputs rf msg hmiss
    unfold execute
    simp only [hmiss]

/-- Witness for the amended C1: a missing required input fails the run before
any step. -/
theorem C1_status_characterization_witness :
    (execute (bareEx okHandler) reqWf [] none).1 =
      Except.ok { workflow_name := reqWf.name, status := "failed", steps := [],
                  outputs := [], total_tokens := 0,
                  error := some ("Missing required input: " ++ "x") } :=
  C1_status_characterization.2.2 (bareEx okHandler) reqWf [] none
    ("Missing required input: " ++ "x") rfl

/-- C2 counterexample: with a validator that accepts the input but rejects
every output, a role-declaring step with `max_retries = 1` and an
always-succeeding handler is retried after the output-contract violation —
the handler runs a second time (attempt 1) and the final result carries
`retries = 1` — contradicting "no retry attempt made after the violation". -/
theorem C2_counterexample :
    (execStep exOutFail roleStep none []).1.status = StepStatus.failed ∧
    (execStep exOutFail roleStep none []).1.retries = 1 ∧
    Event.handlerCall "s1" 1 ∈ (execStep exOutFail roleStep none []).2 := by
  decide

/-- C2 (amended): an *input*-contract violation marks the step FAILED
immediately — result fixed, zero retries, no handler invocation, no events;
an *output*-contract violation is instead treated as an ordinary attempt
failure: with a retry available, the handler is invoked again (attempt 1)
after the violation. -/
theorem C2_contract_violations :
    (∀ (ex : Executor) (step : StepConfig) (wfId : Option String) (ctx : Ctx) (e : String),
      condPasses step ctx = true →
      inputValidation ex step ctx = Except.error e →
      execStep ex step wfId ctx =
        ({ step_id := step.id, status := StepStatus.failed, output := [],
           error := some ("Input validation failed: " ++ e), tokens_used := Value.vInt 0,
           retries := 0 }, [])) ∧
    (∀ (ex : Executor) (step : StepConfig) (wfId : Option String) (ctx : Ctx)
        (h : HandlerBehavior) (out : OutputMap) (e : String),
      condPasses step ctx = true →
      inputValidation ex step ctx = Except.ok () →
      ex.handlers step.type = some h →
      1 ≤ step.max_retries →
      stageEnterRes ex wfId step.id 0 = Except.ok () →
      stageExitRes ex wfId step.id 0 = Except.ok () →
      stageEnterRes ex wfId step.id 1 = Except.ok () →
      h step ctx 0 = Except.ok out →
      outputValidation ex step out = Except.error e →
      Event.handlerCall step.id 1 ∈ (execStep ex step wfId ctx).2) := by
  constructor
  · intro ex step wfId ctx e hcond hin
    exact execStep_of_input_error ex step wfId ctx e hcond hin
  · intro ex step wfId ctx h out e hcond hin hh hmr hen0 hex0 hen1 hh0 hov
    have herr0 : (runAttemptValidated ex step wfId ctx h 0).1 = Except.error e := by
      rw [runAttemptValidated_fst,
        runAttempt_fst_of_stage_ok ex step wfId ctx h 0 hen0 hex0, hh0]
      simp [hov]
    rw [execStep_of_handler ex step wfId ctx h hcond hin hh]
    show Event.handlerCall step.id 1 ∈ (retryLoop ex step wfId ctx h step.max_retries 0).2
    obtain ⟨fuel, hfuel⟩ : ∃ fuel, step.max_retries = fuel + 1 :=
      ⟨step.max_retries - 1, by omega⟩
    rw [hfuel]
    exact retryLoop_retry_handlerCall ex step wfId ctx h fuel 0 e herr0 hen1

/-- Witness for the amended C2: an input-rejecting validator fails the step
immediately with no retry and no handler call. -/
theorem C2_contract_violations_witness :
    execStep exInFail roleStep none [] =
      ({ step_id := roleStep.id, status := StepStatus.failed, output := [],
         error := some ("Input validation failed: " ++ "bad"), tokens_used := Value.vInt 0,
         retries := 0 }, []) :=
  C2_contract_violations.1 exInFail roleStep none [] "bad" rfl rfl

/-- C3 counterexample: with a checkpoint store whose stage finalization
raises, a step whose handler is invoked and returns successfully still comes
back FAILED carrying the store's error — a persistence failure aborts an
otherwise-successful step, contradicting the claim. -/
theorem C3_counterexample :
    (execStep exFlakyStore baseStep (some "wf1") []).1.status = StepStatus.failed ∧
    (execStep exFlakyStore baseStep (some "wf1") []).1.error = some "disk full" ∧
    Event.handlerCall "s1" 0 ∈ (execStep exFlakyStore baseStep (some "wf1") []).2 := by
  decide

/-- C3 (amended): a failure raised by the checkpoint stage is treated like a
handler failure — each attempt fails, the loop exhausts all retries and the
step ends FAILED with `retries = max_retries`, regardless of what the handler
returns; and when no checkpoint manager is configured the run makes no
checkpoint calls at all. -/
theorem C3_checkpoint_behavior :
    (∀ (ex : Executor) (step : StepConfig) (wfId : Option String) (ctx : Ctx)
        (h : HandlerBehavior),
      condPasses step ctx = true →
      inputValidation ex step ctx = Except.ok () →
      ex.handlers step.type = some h →
      staged ex wfId = true →
      (∀ a, stageEnterRes ex wfId step.id a = Except.ok ()) →
      (∀ a, ∃ e2, stageExitRes ex wfId step.id a = Except.error e2) →
      (execStep ex step wfId ctx).1.status = StepStatus.failed ∧
      (execStep ex step wfId ctx).1.retries = step.max_retries) ∧
    (∀ (ex : Executor) (wf : WorkflowConfig) (inputs : Ctx) (rf : Option String),
      ex.checkpoint_manager = none →
      ∀ e ∈ (execute ex wf inputs rf).2, e.isCheckpointCall = false) := by
  constructor
  · intro ex step wfId ctx h hcond hin hh hs hen hexbad
    have herr : ∀ j, j ≤ step.max_retries →
        ∃ e, (runAttemptValidated ex step wfId ctx h (0 + j)).1 = Except.error e := by
      intro j _
      obtain ⟨e2, he2⟩ := hexbad j
      refine ⟨e2, ?_⟩
      rw [Nat.zero_add, runAttemptValidated_fst,
        runAttempt_fst_of_stage_exit_error ex step wfId ctx h j e2 hs (hen j) he2]
    obtain ⟨e, he⟩ := retryLoop_all_error ex step wfId ctx h step.max_retries 0 herr
    rw [Nat.zero_add] at he
    rw [execStep_of_retry_error ex step wfId ctx h e step.max_retries hcond hin hh he]
    exact ⟨rfl, rfl⟩
  · intro ex wf inputs rf hcm
    exact execute_no_ck_events ex wf inputs rf hcm

/-- Witness for the amended C3 at the concrete flaky store. -/
theorem C3_checkpoint_behavior_witness :
    (execStep exFlakyStore baseStep (some "wf1") []).1.status = StepStatus.failed ∧
    (execStep exFlakyStore baseStep (some "wf1") []).1.retries = baseStep.max_retries :=
  C3_checkpoint_behavior.1 exFlakyStore baseStep (some "wf1") [] okYHandler
    rfl rfl rfl rfl (fun _ => rfl) (fun _ => ⟨"disk full", rfl⟩)

theorem finalizeCheckpoint_fst_ok (ex : Executor) (wfId : Option String) (exit : LoopExit)
    (cb : CheckpointBehavior) (hcm : ex.checkpoint_manager = some cb)
    (hcomp : cb.complete_workflow = Except.ok ())
    (hfail : ∀ e, cb.fail_workflow e = Except.ok ()) :
    (finalizeCheckpoint ex wfId exit).1 = Except.ok () := by
  unfold finalizeCheckpoint
  rw [hcm]
  rcases wfId with _ | w
  · rfl
  · cases exit <;> simp [hcomp, hfail]

theorem executeFrom_isOk (ex : Executor) (wf : WorkflowConfig) (ctx0 : Ctx)
    (wfId : Option String) (rf : Option String) (ev0 : List Event)
    (hfin : (finalizeCheckpoint ex wfId
      (runSteps ex wfId (wf.steps.drop (resumeIndex wf.steps rf)) ctx0).1.1).1 =
        Except.ok ()) :
    ∃ r ev, executeFrom ex wf ctx0 wfId rf ev0 = (Except.ok r, ev) := by
  unfold executeFrom
  simp only [hfin]
  exact ⟨_, _, rfl⟩

/-- C4 counterexample: a checkpoint manager whose `start_workflow` raises
makes `execute` propagate the exception uncaught to its caller instead of
returning an ExecutionResult. -/
theorem C4_counterexample :
    (execute exBadStart emptyWf [] none).1 = Except.error "db down" := rfl

/-- C4 (amended): exceptions raised inside the step loop by handlers, the
contract validator, the budget manager or the checkpoint stage are caught and
turned into a failed result, but exceptions from the checkpoint manager's
`start_workflow`, `complete_workflow` and `fail_workflow` propagate — so
whenever those three calls cannot raise (`ckSafe`, in particular whenever no
checkpoint manager is configured), `execute` always returns a result, for
every behaviour of all the other collaborators. -/
theorem C4_no_uncaught_of_ckSafe (ex : Executor) (wf : WorkflowConfig) (inputs : Ctx)
    (rf : Option String) (hsafe : ckSafe ex) :
    ∃ r ev, execute ex wf inputs rf = (Except.ok r, ev) := by
  unfold execute
  rcases hin : applyRequiredInputs wf.inputs inputs with er | ctx0 <;> simp only [hin]
  · exact ⟨_, _, rfl⟩
  · unfold ckSafe at hsafe
    rcases hcm : ex.checkpoint_manager with _ | cb <;> rw [hcm] at hsafe <;> simp only [hcm]
    · refine executeFrom_isOk ex wf ctx0 none rf [] ?_
      rw [finalizeCheckpoint_of_no_manager ex none _ hcm]
    · obtain ⟨hstart, hcomp, hfail⟩ := hsafe
      obtain ⟨wfId, hst⟩ := hstart wf.name ctx0
      simp only [hst]
      refine executeFrom_isOk ex wf ctx0 wfId rf _ ?_
      exact finalizeCheckpoint_fst_ok ex wfId _ cb hcm hcomp hfail

/-- Witness for the amended C4 on a concrete run without a checkpoint
manager. -/
theorem C4_no_uncaught_of_ckSafe_witness :
    ∃ r ev, execute (bareEx okHandler) emptyWf [] none = (Except.ok r, ev) :=
  C4_no_uncaught_of_ckSafe (bareEx okHandler) emptyWf [] none trivial

end AIOrchestra
